import Mathlib

/-!
# Scriptful: upload / training pipeline, script store, chat and routing

Shallow embedding of `backend/routes/train.js`, `backend/routes/scripts.js`,
`backend/routes/chat.js` and the route tables of `scripts.js` and
`conversations.js`.

* Node's `path.extname` and `path.parse(p).name` are modelled by the backward
  scan the posix implementation performs.
* Every awaited call that sits inside a `try` block is a fallible primitive whose
  outcome is read from an environment record `Env`; a primitive that throws leaves
  the store and the disk as they were.
* Handlers run in `ExceptT Unit (StateM HState)`: the state holds the record store,
  the disk and a log of the effects attempted so far, and survives a `throw`. The
  chat handler runs the same way over `ChatState` with outcomes from `ChatEnv`.
* Query parameters `page` and `limit` enter as the integers they are written as and
  are converted to JavaScript numbers: every operation on them rounds its exact
  result to the nearest double. Routing is the first match in the order of
  registration.
-/

set_option autoImplicit false

namespace Scriptful

/-! ## Node `path` (posix) -/

/-- Loop variables of the backward scan shared by `path.extname` and `path.parse`.
`none` stands for the value `-1` of `startDot` and `end`. -/
structure Scan where
  startDot : Option Nat := none
  startPart : Nat := 0
  «end» : Option Nat := none
  matchedSlash : Bool := true
  preDotState : Int := 0
  deriving DecidableEq, Repr

/-- The body of the scan loop for a character that is not a path separator. -/
def scanChar (c : Char) (i : Nat) (st : Scan) : Scan :=
  let st1 : Scan :=
    if st.«end» = none then { st with matchedSlash := false, «end» := some (i + 1) } else st
  if c = '.' then
    if st1.startDot = none then { st1 with startDot := some i }
    else if st1.preDotState ≠ 1 then { st1 with preDotState := 1 } else st1
  else if st1.startDot ≠ none then { st1 with preDotState := -1 } else st1

/-- The loop `for (i = path.length - 1; i >= start; --i)` of the scan.
The first argument lists the characters at indices `i, i-1, …, start`. -/
def scanLoop : List Char → Nat → Scan → Scan
  | [], _, st => st
  | c :: rest, i, st =>
    if c = '/' then
      if !st.matchedSlash then { st with startPart := i + 1 }
      else scanLoop rest (i - 1) st
    else
      scanLoop rest (i - 1) (scanChar c i st)

/-- The test under which the scanned component has no extension. -/
def Scan.noExt (st : Scan) : Bool :=
  match st.startDot, st.«end» with
  | none, _ => true
  | _, none => true
  | some sd, some e =>
    st.preDotState == 0 ||
      (st.preDotState == 1 && sd == e - 1 && sd == st.startPart + 1)

/-- The slice `s.slice(a, b)` of JavaScript strings, on character lists. -/
def jsSlice (s : List Char) (a b : Nat) : List Char :=
  (s.take b).drop a

/-- Node's `path.extname`. -/
def extnameChars (p : List Char) : List Char :=
  let st := scanLoop p.reverse (p.length - 1) {}
  if st.noExt then []
  else
    match st.startDot, st.«end» with
    | some sd, some e => jsSlice p sd e
    | _, _ => []

/-- Node's `path.extname` on strings. -/
def extname (p : String) : String :=
  String.mk (extnameChars p.data)

/-- The field `name` of Node's `path.parse(p)`. -/
def parseNameChars (p : List Char) : List Char :=
  match p with
  | [] => []
  | c0 :: _ =>
    let isAbsolute : Bool := c0 = '/'
    let start : Nat := if isAbsolute then 1 else 0
    let st := scanLoop (p.drop start).reverse (p.length - 1) {}
    match st.«end» with
    | none => []
    | some e =>
      let start2 : Nat := if st.startPart = 0 ∧ isAbsolute then 1 else st.startPart
      if st.noExt then jsSlice p start2 e
      else
        match st.startDot with
        | some sd => jsSlice p start2 sd
        | none => jsSlice p start2 e

/-- The expression `path.parse(p).name`. -/
def parseName (p : String) : String :=
  String.mk (parseNameChars p.data)

/-- The method `String.prototype.includes`. -/
def jsIncludes (s pat : String) : Bool :=
  s.data.tails.any fun t => pat.data.isPrefixOf t

/-- The method `String.prototype.toLowerCase`, on ASCII letters. -/
def toLowerCase (s : String) : String :=
  String.mk (s.data.map Char.toLower)

/-- JavaScript truthiness of a request field that is a string or `undefined`. -/
def truthy : Option String → Bool
  | none => false
  | some s => s != ""

/-- The expression `x || dflt` for a string-or-undefined `x`. -/
def orElseStr (x : Option String) (dflt : String) : String :=
  match x with
  | some s => if s != "" then s else dflt
  | none => dflt

/-! ## Data model -/

/-- The values of the field `status` of a script. -/
inductive Status
  | uploaded
  | processing
  | error
  | trained
  deriving DecidableEq, Repr

/-- The results `parseInt` can produce. -/
inductive JsNumber
  | nan
  | posInf
  | negInf
  | finite (v : Int)
  deriving DecidableEq, Repr

/-- The sub-document `metadata`; `year = none` is JavaScript `null`. -/
structure Metadata where
  genre : String
  year : Option JsNumber
  author : String
  deriving DecidableEq, Repr

/-- Modelled from the spec: the document type of `../models/Script`, which is not
among the sources. It has the fields the handlers read and write, a `status`
that starts as `uploaded`, and the two timestamps. -/
structure Script where
  id : String
  title : String
  filename : String
  originalName : String
  filePath : String
  fileSize : Nat
  mimeType : String
  content : String
  metadata : Metadata
  status : Status := Status.uploaded
  trainingData : Option String := none
  createdAt : Nat := 0
  updatedAt : Nat := 0
  deriving DecidableEq, Repr

/-- The file part of a multipart request as multer sees it before storing it. -/
structure IncomingFile where
  fieldname : String
  originalname : String
  mimetype : String
  size : Nat
  deriving DecidableEq, Repr

/-- The object `req.file` that multer hands to the handler. -/
structure UploadedFile where
  fieldname : String
  originalname : String
  mimetype : String
  size : Nat
  filename : String
  path : String
  deriving DecidableEq, Repr

/-- The text fields `req.body` of the upload; `none` is `undefined`. -/
structure UploadBody where
  title : Option String := none
  genre : Option String := none
  year : Option String := none
  author : Option String := none
  deriving DecidableEq, Repr

/-- The body of the request sent to the training service. -/
structure TrainRequest where
  scriptId : String
  content : String
  metadata : Metadata
  deriving DecidableEq, Repr

/-- The object `script` inside the upload responses. -/
structure ScriptSummary where
  id : String
  title : String
  status : Status
  filename : String
  deriving DecidableEq, Repr

/-- The object returned by `GET /status/:scriptId`. -/
structure StatusView where
  scriptId : String
  title : String
  status : Status
  trainingData : Option String
  createdAt : Nat
  updatedAt : Nat
  deriving DecidableEq, Repr

/-- The JSON bodies the handlers send. -/
inductive ResBody
  | error (error : String)
  | uploadOk (message : String) (script : ScriptSummary)
  | trainingFailed (error : String) (script : ScriptSummary)
  | status (view : StatusView)
  | deleted (message : String) (scriptId : String)
  | updated (message : String) (script : Script)
  deriving DecidableEq, Repr

/-- An HTTP response: status code and JSON body (`res.json` alone answers 200). -/
structure Response where
  code : Nat
  body : ResBody
  deriving DecidableEq, Repr

/-- The errors multer passes to the error middleware. -/
structure UploadError where
  isMulterError : Bool
  code : String
  message : String
  deriving DecidableEq, Repr

/-- What a route ends with: a response, or `next(error)` out of the router. -/
inductive RouteResult
  | respond (r : Response)
  | next (e : UploadError)
  deriving DecidableEq, Repr

/-! ## World, environment and effects -/

/-- The record store and the files on disk. -/
structure World where
  db : List Script
  disk : List String
  deriving DecidableEq, Repr

/-- Outcomes of the calls a handler awaits, and the values it reads from outside. -/
structure Env where
  uploadDir : String := "/app/backend/scripts"
  now : Nat := 0
  random : Nat := 0
  newId : String := "id0"
  mkdirError : Option String := none
  readFile : Option String := some ""
  saveOk : Bool := true
  postOk : Bool := true
  updateOk : Status → Bool := fun _ => true
  unlinkOk : Bool := true
  findOk : Bool := true
  deleteOk : Bool := true

/-- The effects a handler attempts, with their outcome. -/
inductive Effect
  | blobWrite (path : String)
  | readFile (path : String) (ok : Bool)
  | saveNew (id : String) (ok : Bool)
  | trainPost (req : TrainRequest) (ok : Bool)
  | statusWrite (id : String) (status : Status) (ok : Bool)
  | unlink (path : String) (ok : Bool)
  | findById (id : String) (ok : Bool)
  | deleteRecord (id : String) (ok : Bool)
  | saveExisting (id : String) (ok : Bool)
  deriving DecidableEq, Repr

/-- State threaded through a handler. -/
structure HState where
  world : World
  log : List Effect := []
  deriving DecidableEq, Repr

/-- Handlers: exceptions over state; the state survives a `throw`. -/
abbrev Handler := ExceptT Unit (StateM HState)

/-- Run a handler from a state. -/
def exec {α : Type} (h : Handler α) (s : HState) : Except Unit α × HState :=
  (ExceptT.run h).run s

/-- Run a handler from a world with an empty log. -/
def runHandler {α : Type} (h : Handler α) (w : World) : Except Unit α × HState :=
  exec h { world := w }

/-- Record an attempted effect. -/
def emit (e : Effect) : Handler Unit :=
  modify fun s => { s with log := s.log ++ [e] }

/-- The call `fs.readFile(path, 'utf8')`. -/
def fsReadFile (env : Env) (path : String) : Handler String := do
  match env.readFile with
  | some text =>
    emit (Effect.readFile path true)
    pure text
  | none =>
    emit (Effect.readFile path false)
    throw ()

/-- The disk after the file at `path` is removed. -/
def World.removeFile (w : World) (path : String) : World :=
  { w with disk := w.disk.filter fun p => p ≠ path }

/-- The store after the record `id` is removed. -/
def World.removeRecord (w : World) (id : String) : World :=
  { w with db := w.db.filter fun d => d.id ≠ id }

/-- The store after a new record is inserted. -/
def World.insert (w : World) (doc : Script) : World :=
  { w with db := w.db ++ [doc] }

/-- The store after the status of the record `id` is set at time `now`. -/
def World.setStatus (w : World) (id : String) (st : Status) (now : Nat) : World :=
  { w with db := w.db.map fun d =>
      if d.id = id then { d with status := st, updatedAt := now } else d }

/-- The record with the given id, if any. -/
def World.lookup (w : World) (id : String) : Option Script :=
  w.db.find? fun d => d.id = id

/-- The call `fs.unlink(path)`: throws when the file is absent or the call fails. -/
def fsUnlink (env : Env) (path : String) : Handler Unit := do
  let s ← get
  if env.unlinkOk ∧ path ∈ s.world.disk then
    set { s with world := s.world.removeFile path }
    emit (Effect.unlink path true)
  else
    emit (Effect.unlink path false)
    throw ()

/-- The query `Script.findById(id)`. -/
def findById (env : Env) (id : String) : Handler (Option Script) := do
  if env.findOk then
    emit (Effect.findById id true)
    let s ← get
    pure (s.world.lookup id)
  else
    emit (Effect.findById id false)
    throw ()

/-- The call `Script.findByIdAndDelete(id)`; `_id` is the unique key of the
collection, so dropping the matches drops the record. -/
def findByIdAndDelete (env : Env) (id : String) : Handler Unit := do
  if env.deleteOk then
    let s ← get
    set { s with world := s.world.removeRecord id }
    emit (Effect.deleteRecord id true)
  else
    emit (Effect.deleteRecord id false)
    throw ()

/-- The call `script.save()` on a new document: the insert is refused when the
store fails or already holds the id. The stored document carries its timestamps. -/
def saveNew (env : Env) (doc : Script) : Handler Script := do
  let s ← get
  if env.saveOk ∧ s.world.lookup doc.id = none then
    let stored : Script := { doc with createdAt := env.now, updatedAt := env.now }
    set { s with world := s.world.insert stored }
    emit (Effect.saveNew doc.id true)
    pure stored
  else
    emit (Effect.saveNew doc.id false)
    throw ()

/-- Modelled from the spec: the method `updateStatus` of `../models/Script`, which is
not among the sources: "transition and persist" the given status. It sets the
field on the document and saves it; when the save fails it throws and the stored
record is unchanged. -/
def updateStatus (env : Env) (doc : Script) (st : Status) : Handler Script := do
  if env.updateOk st then
    let s ← get
    set { s with world := s.world.setStatus doc.id st env.now }
    emit (Effect.statusWrite doc.id st true)
    pure { doc with status := st, updatedAt := env.now }
  else
    emit (Effect.statusWrite doc.id st false)
    throw ()

/-- The call `axios.post(AI_SERVICE_URL + '/train', body)`: a transport error or a
non-2xx answer throws. -/
def axiosPostTrain (env : Env) (req : TrainRequest) : Handler Unit := do
  emit (Effect.trainPost req env.postOk)
  if env.postOk then pure () else throw ()

/-- The store after the record with the id of `doc` is overwritten by `doc`. -/
def World.replace (w : World) (doc : Script) : World :=
  { w with db := w.db.map fun d => if d.id = doc.id then doc else d }

/-- The call `script.save()` on a document loaded from the store and changed in
memory: the stored record takes the document, with a new `updatedAt`; when the
save fails it throws and the stored record is unchanged. -/
def saveExisting (env : Env) (doc : Script) : Handler Script := do
  if env.saveOk then
    let s ← get
    set { s with world := s.world.replace { doc with updatedAt := env.now } }
    emit (Effect.saveExisting doc.id true)
    pure { doc with updatedAt := env.now }
  else
    emit (Effect.saveExisting doc.id false)
    throw ()

/-! ## `routes/train.js` -/

/-- The list `allowedTypes` of the upload filter. -/
def allowedTypes : List String := [".txt", ".pdf", ".doc", ".docx"]

/-- The message of the error the filter raises. -/
def invalidTypeMessage : String :=
  "Invalid file type. Only .txt, .pdf, .doc, .docx files are allowed."

/-- The option `fileFilter` of `upload`: `true` accepts the file, `false` stands for
`cb(new Error(invalidTypeMessage))`. `toLowerCase` lowers ASCII letters only,
which decides membership in `allowedTypes` as the JavaScript method does: no
other character lowers to a letter of that list. -/
def fileFilter (originalname : String) : Bool :=
  let ext := toLowerCase (extname originalname)
  allowedTypes.contains ext

/-- The option `limits.fileSize` of `upload`. -/
def fileSizeLimit : Nat := 10 * 1024 * 1024

/-- The option `filename` of `storage`; `now` is `Date.now()` and `random` is
`Math.round(Math.random() * 1E9)`. -/
def storageFilename (now random : Nat) (file : IncomingFile) : String :=
  let uniqueSuffix := toString now ++ "-" ++ toString random
  file.fieldname ++ "-" ++ uniqueSuffix ++ extname file.originalname

/-- The middleware `upload.single('script')` with the options of `train.js`: multer
skips a file part whose file name is empty (`req.file` stays `undefined`), refuses
a file in another field, asks `fileFilter`, asks `storage` for the directory and
the name, writes the file and enforces the size limit (removing what it wrote).
The result is `req.file`, or the error passed to `next`. -/
def uploadSingle (env : Env) (incoming : Option IncomingFile) :
    StateM HState (Except UploadError (Option UploadedFile)) := do
  match incoming with
  | none => pure (Except.ok none)
  | some file =>
    if file.originalname = "" then
      pure (Except.ok none)
    else if file.fieldname ≠ "script" then
      pure (Except.error ⟨true, "LIMIT_UNEXPECTED_FILE", "Unexpected field"⟩)
    else if !fileFilter file.originalname then
      pure (Except.error ⟨false, "", invalidTypeMessage⟩)
    else
      match env.mkdirError with
      | some msg => pure (Except.error ⟨false, "", msg⟩)
      | none =>
        if file.size > fileSizeLimit then
          pure (Except.error ⟨true, "LIMIT_FILE_SIZE", "File too large"⟩)
        else
          let name := storageFilename env.now env.random file
          let path := env.uploadDir ++ "/" ++ name
          modify fun s =>
            { s with world := { s.world with disk := s.world.disk ++ [path] },
                     log := s.log ++ [Effect.blobWrite path] }
          pure (Except.ok (some
            { fieldname := file.fieldname, originalname := file.originalname,
              mimetype := file.mimetype, size := file.size,
              filename := name, path := path }))

/-- The error-handling middleware at the end of `train.js`. -/
def errorMiddleware (error : UploadError) : RouteResult :=
  if error.isMulterError ∧ error.code = "LIMIT_FILE_SIZE" then
    RouteResult.respond ⟨400, ResBody.error "File too large. Maximum size is 10MB."⟩
  else if jsIncludes error.message "Invalid file type" then
    RouteResult.respond ⟨400, ResBody.error error.message⟩
  else
    RouteResult.next error

/-- The placeholder stored when reading the file throws. -/
def binaryPlaceholder (mimetype : String) : String :=
  "[Binary file content - " ++ mimetype ++ "]"

/-- The document `new Script(...)` built by the upload handler; `parseInt` is the
JavaScript built-in. -/
def newScript (parseInt : String → JsNumber) (id : String) (file : UploadedFile)
    (body : UploadBody) (content : String) : Script :=
  { id := id
    title := orElseStr body.title (parseName file.originalname)
    filename := file.filename
    originalName := file.originalname
    filePath := file.path
    fileSize := file.size
    mimeType := file.mimetype
    content := content
    metadata :=
      { genre := orElseStr body.genre "Unknown"
        year := if truthy body.year then some (parseInt (body.year.getD "")) else none
        author := orElseStr body.author "Unknown" } }

/-- The object `script` of both upload responses. -/
def summary (script : Script) : ScriptSummary :=
  { id := script.id, title := script.title, status := script.status,
    filename := script.filename }

/-- The body of the outer `try` block of the upload handler. -/
def postTrainTry (parseInt : String → JsNumber) (env : Env) (reqFile : Option UploadedFile)
    (body : UploadBody) : Handler Response := do
  match reqFile with
  | none => return ⟨400, ResBody.error "No file uploaded"⟩
  | some file =>
    let content ←
      try fsReadFile env file.path
      catch _ => pure (binaryPlaceholder file.mimetype)
    let script := newScript parseInt env.newId file body content
    let script ← saveNew env script
    try
      axiosPostTrain env
        { scriptId := script.id, content := content, metadata := script.metadata }
      let script ← updateStatus env script Status.processing
      return ⟨200, ResBody.uploadOk
        "Script uploaded successfully and sent for training" (summary script)⟩
    catch _ =>
      let script ← updateStatus env script Status.error
      return ⟨500, ResBody.trainingFailed
        "Script uploaded but training failed" (summary script)⟩

/-- The body of the outer `catch (error)` block of the upload handler. -/
def postTrainCatch (env : Env) (reqFile : Option UploadedFile) : Handler Response := do
  match reqFile with
  | some file =>
    try fsUnlink env file.path
    catch _ => pure ()
  | none => pure ()
  return ⟨500, ResBody.error "Internal server error"⟩

/-- The handler of `POST /api/train`, after `upload.single('script')`. -/
def postTrain (parseInt : String → JsNumber) (env : Env) (reqFile : Option UploadedFile)
    (body : UploadBody) : Handler Response :=
  tryCatch (postTrainTry parseInt env reqFile body) fun _ => postTrainCatch env reqFile

/-- The route `POST /api/train`: multer, then the handler or the error middleware.
The result is the final state and what the route answered. -/
def uploadRoute (parseInt : String → JsNumber) (env : Env)
    (incoming : Option IncomingFile) (body : UploadBody) (w : World) :
    HState × RouteResult :=
  match (uploadSingle env incoming).run { world := w } with
  | (Except.error e, s) => (s, errorMiddleware e)
  | (Except.ok reqFile, s) =>
    match exec (postTrain parseInt env reqFile body) s with
    | (Except.ok r, s2) => (s2, RouteResult.respond r)
    | (Except.error _, s2) => (s2, RouteResult.next ⟨false, "", "unhandled"⟩)

/-- The handler of `GET /api/train/status/:scriptId`. -/
def getTrainStatus (env : Env) (scriptId : String) : Handler Response :=
  tryCatch
    (do
      let script ← findById env scriptId
      match script with
      | none => return ⟨404, ResBody.error "Script not found"⟩
      | some script =>
        return ⟨200, ResBody.status
          { scriptId := script.id, title := script.title, status := script.status,
            trainingData := script.trainingData, createdAt := script.createdAt,
            updatedAt := script.updatedAt }⟩)
    fun _ => return ⟨500, ResBody.error "Internal server error"⟩

/-! ## `routes/scripts.js` -/

/-- The handler of `DELETE /api/scripts/:id`. -/
def deleteScript (env : Env) (id : String) : Handler Response :=
  tryCatch
    (do
      let script ← findById env id
      match script with
      | none => return ⟨404, ResBody.error "Script not found"⟩
      | some script =>
        try fsUnlink env script.filePath
        catch _ => pure ()
        findByIdAndDelete env id
        return ⟨200, ResBody.deleted "Script deleted successfully" id⟩)
    fun _ => return ⟨500, ResBody.error "Internal server error"⟩

/-- The four assignments of the update handler: a field of the body that is not
`undefined` overwrites the field of the document. -/
def applyUpdate (parseInt : String → JsNumber) (body : UploadBody) (script : Script) :
    Script :=
  let s1 : Script :=
    match body.title with
    | some title => { script with title := title }
    | none => script
  let s2 : Script :=
    match body.genre with
    | some genre => { s1 with metadata := { s1.metadata with genre := genre } }
    | none => s1
  let s3 : Script :=
    match body.year with
    | some year => { s2 with metadata := { s2.metadata with year := some (parseInt year) } }
    | none => s2
  match body.author with
  | some author => { s3 with metadata := { s3.metadata with author := author } }
  | none => s3

/-- The handler of `PUT /api/scripts/:id`. -/
def putScript (parseInt : String → JsNumber) (env : Env) (id : String) (body : UploadBody) :
    Handler Response :=
  tryCatch
    (do
      let script ← findById env id
      match script with
      | none => return ⟨404, ResBody.error "Script not found"⟩
      | some script =>
        let script := applyUpdate parseInt body script
        let script ← saveExisting env script
        return ⟨200, ResBody.updated "Script updated successfully" script⟩)
    fun _ => return ⟨500, ResBody.error "Internal server error"⟩

/-! ## Observations on an upload -/

/-- The value of `content` once the upload handler has tried to read the file. -/
def readContent (env : Env) (file : UploadedFile) : String :=
  match env.readFile with
  | some text => text
  | none => binaryPlaceholder file.mimetype

/-- The record the upload handler inserts when `script.save()` succeeds. -/
def insertedDoc (parseInt : String → JsNumber) (env : Env) (file : UploadedFile)
    (body : UploadBody) : Script :=
  { newScript parseInt env.newId file body (readContent env file) with
    createdAt := env.now, updatedAt := env.now }

/-- The request the upload handler sends to the training service. -/
def trainRequestOf (parseInt : String → JsNumber) (env : Env) (file : UploadedFile)
    (body : UploadBody) : TrainRequest :=
  { scriptId := env.newId, content := readContent env file,
    metadata := (newScript parseInt env.newId file body (readContent env file)).metadata }

/-- The log up to and including `script.save()`. -/
def logToSave (env : Env) (file : UploadedFile) (saved : Bool) : List Effect :=
  [Effect.readFile file.path env.readFile.isSome, Effect.saveNew env.newId saved]

/-- The state after the unlink attempt of the `catch (error)` block. -/
def afterCleanup (env : Env) (path : String) (s : HState) : HState :=
  if env.unlinkOk ∧ path ∈ s.world.disk then
    { world := s.world.removeFile path, log := s.log ++ [Effect.unlink path true] }
  else
    { s with log := s.log ++ [Effect.unlink path false] }

/-- The answer of the `catch (error)` block. -/
def internalError : Response := ⟨500, ResBody.error "Internal server error"⟩

/-- The persisted statuses an execution log shows, in order: the insert creates the
record as `uploaded`, every successful status write adds its status. -/
def statusTrace : List Effect → List Status
  | [] => []
  | Effect.saveNew _ true :: rest => Status.uploaded :: statusTrace rest
  | Effect.statusWrite _ st true :: rest => st :: statusTrace rest
  | _ :: rest => statusTrace rest

/-- The statuses an execution attempted to write with `updateStatus`. -/
def statusWrites : List Effect → List Status
  | [] => []
  | Effect.statusWrite _ st _ :: rest => st :: statusWrites rest
  | _ :: rest => statusWrites rest

/-- The training requests an execution sent. -/
def trainPosts : List Effect → List TrainRequest
  | [] => []
  | Effect.trainPost req _ :: rest => req :: trainPosts rest
  | _ :: rest => trainPosts rest

/-- The object `req.file` multer builds for a file it stores. -/
def storedFile (env : Env) (f : IncomingFile) : UploadedFile :=
  { fieldname := f.fieldname, originalname := f.originalname, mimetype := f.mimetype,
    size := f.size, filename := storageFilename env.now env.random f,
    path := env.uploadDir ++ "/" ++ storageFilename env.now env.random f }

/-- The upload is accepted: multer stores the file and calls the handler with it. -/
def accepts (env : Env) (f : IncomingFile) : Bool :=
  f.fieldname == "script" && fileFilter f.originalname && env.mkdirError.isNone &&
    decide (f.size ≤ fileSizeLimit)

/-- The state in which the handler of an accepted upload starts. -/
def afterStore (env : Env) (f : IncomingFile) (w : World) : HState :=
  { world := { w with disk := w.disk ++ [(storedFile env f).path] },
    log := [Effect.blobWrite (storedFile env f).path] }

/-- A response counts as a success when its status code is 2xx. -/
def RouteResult.isSuccess : RouteResult → Bool
  | RouteResult.respond r => decide (200 ≤ r.code) && decide (r.code < 300)
  | RouteResult.next _ => false

/-- The projection `GET /status/:scriptId` sends for a record. -/
def statusView (d : Script) : StatusView :=
  { scriptId := d.id, title := d.title, status := d.status, trainingData := d.trainingData,
    createdAt := d.createdAt, updatedAt := d.updatedAt }

/-! ## Example runs -/

/-- The upload of the spec's example: `script.txt`, plain text, 15 bytes. -/
def exampleUpload : IncomingFile := ⟨"script", "script.txt", "text/plain", 15⟩

/-- A stand-in for `parseInt` in the example runs, none of which supplies a year. -/
def exampleParseInt : String → JsNumber := fun _ => JsNumber.nan

/-- An empty store and an empty upload directory. -/
def emptyWorld : World := ⟨[], []⟩

/-- Where multer stores `exampleUpload` under the default environment. -/
def examplePath : String := "/app/backend/scripts/script-0-0.txt"

/-- The example upload when the training service refuses and the following write of
`error` throws as well. -/
def runPostAndErrorWriteFail : HState × RouteResult :=
  uploadRoute exampleParseInt { postOk := false, updateOk := fun _ => false }
    (some exampleUpload) {} emptyWorld

/-- The example upload when the training service refuses and the store works. -/
def runPostFail : HState × RouteResult :=
  uploadRoute exampleParseInt { postOk := false } (some exampleUpload) {} emptyWorld

/-- The example upload when the training service accepts and the write of
`processing` throws. -/
def runProcessingWriteFail : HState × RouteResult :=
  uploadRoute exampleParseInt { updateOk := fun st => st != Status.processing }
    (some exampleUpload) {} emptyWorld

/-- The example upload when the insert of the record throws and so does the unlink. -/
def runSaveAndUnlinkFail : HState × RouteResult :=
  uploadRoute exampleParseInt { saveOk := false, unlinkOk := false }
    (some exampleUpload) {} emptyWorld

/-- An upload the filter refuses: an executable. -/
def exeUpload : IncomingFile := ⟨"script", "evil.exe", "application/octet-stream", 100⟩

/-- An upload with an upper-case extension. -/
def upperPdfUpload : IncomingFile := ⟨"script", "REPORT.PDF", "application/pdf", 9⟩

/-- A file part in the field `script` whose file name is empty. -/
def unnamedUpload : IncomingFile := ⟨"script", "", "application/octet-stream", 0⟩

/-- The executable sent in the field `file` instead of `script`. -/
def otherFieldUpload : IncomingFile := ⟨"file", "evil.exe", "application/octet-stream", 100⟩

/-- A body that supplies every metadata field. -/
def fullMetadata : UploadBody :=
  { title := some "Heat", genre := some "Crime", year := some "1995",
    author := some "Michael Mann" }

/-- An instance of the parameter `parseInt` for the example with a year: the value of
the built-in on the string `1995`, and `NaN`, its value on the empty string,
elsewhere. -/
def yearParseInt : String → JsNumber :=
  fun s => if s = "1995" then JsNumber.finite 1995 else JsNumber.nan

/-- A record whose blob is not on disk. -/
def orphanDoc : Script :=
  { id := "a1", title := "t", filename := "script-1-2.txt", originalName := "t.txt",
    filePath := "/app/backend/scripts/script-1-2.txt", fileSize := 3, mimeType := "text/plain",
    content := "abc", metadata := ⟨"Unknown", none, "Unknown"⟩ }

/-- A store holding `orphanDoc` and an empty disk. -/
def orphanWorld : World := ⟨[orphanDoc], []⟩

/-- The record `orphanDoc` with another provenance: original name, size, media type. -/
def otherProvenanceDoc : Script :=
  { orphanDoc with originalName := "draft.pdf", fileSize := 99, mimeType := "application/pdf" }

/-- A PDF upload. -/
def pdfUpload : IncomingFile := ⟨"script", "paper.pdf", "application/pdf", 9⟩

/-- What `fs.readFile(path, 'utf8')` gives for the bytes of a PDF: text, with
replacement characters where the bytes are not UTF-8. The read does not throw. -/
def pdfText : String := "%PDF-1.4�"

/-- The PDF upload with everything working. -/
def runPdfUpload : HState × RouteResult :=
  uploadRoute exampleParseInt { readFile := some pdfText } (some pdfUpload) {} emptyWorld

/-- The environment of an upload that draws `Date.now() = 1700000000000` and the
random integer `42`, and gives the record the id `id`. -/
def sameDrawEnv (id : String) : Env :=
  { newId := id, now := 1700000000000, random := 42 }

/-- Two uploads of `script.txt`, one after the other, that draw the same timestamp
and the same random integer: the final state. -/
def runTwoUploadsSameDraw : HState × RouteResult :=
  uploadRoute exampleParseInt (sameDrawEnv "id1") (some exampleUpload) {}
    (uploadRoute exampleParseInt (sameDrawEnv "id0") (some exampleUpload) {} emptyWorld).1.world

/-- An update that supplies a title and a year only. -/
def titleYearUpdate : UploadBody := { title := some "New title", year := some "1999" }

/-! ## Pagination of the list and search handlers

The handlers compute with JavaScript numbers. The values that occur are integers or
infinite, so a finite number is carried as the integer it equals; every operation
rounds its exact result to the nearest double (53 binary digits, ties to even) and
overflows to an infinity. The sign of a zero is not carried. -/

/-- The number of binary digits of `n`; the first argument bounds the recursion. -/
def bitLength : Nat → Nat → Nat
  | 0, _ => 0
  | fuel + 1, n => if n = 0 then 0 else bitLength fuel (n / 2) + 1

/-- The integer nearest to `num / den`, the even one of two nearest. -/
def roundHalfEven (num den : Nat) : Nat :=
  if 2 * (num % den) > den ∨ (2 * (num % den) = den ∧ (num / den) % 2 = 1) then num / den + 1
  else num / den

/-- The double nearest to the natural number `n`, as a natural number: 53 binary
digits are kept, the rest is rounded to nearest, ties to even. -/
def roundToDouble (n : Nat) : Nat :=
  roundHalfEven n (2 ^ (bitLength n n - 53)) * 2 ^ (bitLength n n - 53)

/-- Whether `n` has more than 1024 binary digits, that is `n ≥ 2 ^ 1024`: beyond the
finite doubles. -/
def overflows (n : Nat) : Bool :=
  decide (1024 < bitLength n n)

/-- The least `s` from the last argument on, within the fuel, with
`a * 2 ^ s ≥ bound`. -/
def leastShiftUp : Nat → Nat → Nat → Nat → Nat
  | 0, _, _, s => s
  | fuel + 1, a, bound, s => if a * 2 ^ s ≥ bound then s else leastShiftUp fuel a bound (s + 1)

/-- The least `e` from the last argument on, within the fuel, with `a < b * 2 ^ e`. -/
def leastShiftDown : Nat → Nat → Nat → Nat → Nat
  | 0, _, _, e => e
  | fuel + 1, a, b, e => if a < b * 2 ^ e then e else leastShiftDown fuel a b (e + 1)

/-- The double nearest to `a / b` for `a, b > 0`, as a fraction `(num, den)` with
`den` a power of two: the quotient is scaled to 53 binary digits (fewer below the
least normal double) and rounded. -/
def roundQuotient (a b : Nat) : Nat × Nat :=
  if a < b * 2 ^ 53 then
    let s := min (leastShiftUp (b + 53) a (b * 2 ^ 52) 0) 1074
    (roundHalfEven (a * 2 ^ s) b, 2 ^ s)
  else
    let e := leastShiftDown a a (b * 2 ^ 53) 0
    (roundHalfEven a (b * 2 ^ e) * 2 ^ e, 1)

/-- The JavaScript number nearest to the integer `v`. -/
def jsOfInt (v : Int) : JsNumber :=
  if overflows (roundToDouble v.natAbs) then (if v < 0 then JsNumber.negInf else JsNumber.posInf)
  else JsNumber.finite (if v < 0 then -(roundToDouble v.natAbs : Int) else roundToDouble v.natAbs)

/-- The number a query parameter written as the decimal integer `n` converts to, in
`page - 1`, `page * limit`, `page > 1`, `total / limit` and `parseInt(page)`; also
the number a count `n` is. -/
def toNumber (n : Nat) : JsNumber :=
  jsOfInt n

/-- The operator `*` on numbers. -/
def jsMul : JsNumber → JsNumber → JsNumber
  | JsNumber.finite a, JsNumber.finite b => jsOfInt (a * b)
  | JsNumber.nan, _ => JsNumber.nan
  | _, JsNumber.nan => JsNumber.nan
  | JsNumber.posInf, JsNumber.posInf => JsNumber.posInf
  | JsNumber.posInf, JsNumber.negInf => JsNumber.negInf
  | JsNumber.negInf, JsNumber.posInf => JsNumber.negInf
  | JsNumber.negInf, JsNumber.negInf => JsNumber.posInf
  | JsNumber.posInf, JsNumber.finite b =>
    if b = 0 then JsNumber.nan else if b < 0 then JsNumber.negInf else JsNumber.posInf
  | JsNumber.negInf, JsNumber.finite b =>
    if b = 0 then JsNumber.nan else if b < 0 then JsNumber.posInf else JsNumber.negInf
  | JsNumber.finite a, JsNumber.posInf =>
    if a = 0 then JsNumber.nan else if a < 0 then JsNumber.negInf else JsNumber.posInf
  | JsNumber.finite a, JsNumber.negInf =>
    if a = 0 then JsNumber.nan else if a < 0 then JsNumber.posInf else JsNumber.negInf

/-- The operator `-` on numbers. -/
def jsSub : JsNumber → JsNumber → JsNumber
  | JsNumber.finite a, JsNumber.finite b => jsOfInt (a - b)
  | JsNumber.nan, _ => JsNumber.nan
  | _, JsNumber.nan => JsNumber.nan
  | JsNumber.posInf, JsNumber.posInf => JsNumber.nan
  | JsNumber.negInf, JsNumber.negInf => JsNumber.nan
  | JsNumber.posInf, _ => JsNumber.posInf
  | JsNumber.negInf, _ => JsNumber.negInf
  | JsNumber.finite _, JsNumber.posInf => JsNumber.negInf
  | JsNumber.finite _, JsNumber.negInf => JsNumber.posInf

/-- The operator `<` on numbers (`a > b` is `b < a`). -/
def jsLt : JsNumber → JsNumber → Bool
  | JsNumber.finite a, JsNumber.finite b => decide (a < b)
  | JsNumber.nan, _ => false
  | _, JsNumber.nan => false
  | JsNumber.negInf, JsNumber.negInf => false
  | JsNumber.negInf, _ => true
  | JsNumber.posInf, _ => false
  | JsNumber.finite _, JsNumber.posInf => true
  | JsNumber.finite _, JsNumber.negInf => false

/-- The value `Math.ceil(a / b)`: the quotient is rounded to a double first, the
ceiling is taken of that double. -/
def jsCeilDiv : JsNumber → JsNumber → JsNumber
  | JsNumber.finite a, JsNumber.finite b =>
    if b = 0 then
      if a = 0 then JsNumber.nan else if a < 0 then JsNumber.negInf else JsNumber.posInf
    else if a = 0 then JsNumber.finite 0
    else if overflows ((roundQuotient a.natAbs b.natAbs).1 / (roundQuotient a.natAbs b.natAbs).2) then
      if (a < 0 ↔ b < 0) then JsNumber.posInf else JsNumber.negInf
    else if (a < 0 ↔ b < 0) then
      JsNumber.finite (((roundQuotient a.natAbs b.natAbs).1 + (roundQuotient a.natAbs b.natAbs).2 - 1) /
        (roundQuotient a.natAbs b.natAbs).2 : Nat)
    else
      JsNumber.finite (-(((roundQuotient a.natAbs b.natAbs).1 / (roundQuotient a.natAbs b.natAbs).2 : Nat) : Int))
  | JsNumber.nan, _ => JsNumber.nan
  | _, JsNumber.nan => JsNumber.nan
  | JsNumber.finite _, _ => JsNumber.finite 0
  | JsNumber.posInf, JsNumber.finite b => if b < 0 then JsNumber.negInf else JsNumber.posInf
  | JsNumber.negInf, JsNumber.finite b => if b < 0 then JsNumber.posInf else JsNumber.negInf
  | _, _ => JsNumber.nan

/-- The object `pagination` of the list and search answers; `total` is the field
`totalScripts` or `totalConversations`. -/
structure Pagination where
  currentPage : JsNumber
  totalPages : JsNumber
  total : JsNumber
  hasNext : Bool
  hasPrev : Bool
  deriving DecidableEq, Repr

/-- The block `pagination` the handlers build: `page` and `limit` are the
non-negative integers the query parameters are written as (or the defaults),
`total` is the count. -/
def paginationOf (page limit total : Nat) : Pagination :=
  { currentPage := toNumber page
    totalPages := jsCeilDiv (toNumber total) (toNumber limit)
    total := toNumber total
    hasNext := jsLt (jsMul (toNumber page) (toNumber limit)) (toNumber total)
    hasPrev := jsLt (JsNumber.finite 1) (toNumber page) }

/-- The argument `(page - 1) * limit` of `.skip(...)`. -/
def skipCount (page limit : Nat) : JsNumber :=
  jsMul (jsSub (toNumber page) (JsNumber.finite 1)) (toNumber limit)

/-- The argument `limit * 1` of `.limit(...)`. -/
def limitCount (limit : Nat) : JsNumber :=
  jsMul (toNumber limit) (JsNumber.finite 1)

/-- The documents a query with `.limit(limit).skip(skip)` returns from the sorted
matches, for a skip and a limit that are natural numbers: the store skips first and
limits next. -/
def pageItems {α : Type} (sorted : List α) (skip limit : Nat) : List α :=
  (sorted.drop skip).take limit

/-- The ceiling of `total / limit` over the natural numbers, the value the double
computation `jsCeilDiv` is compared with. -/
def ceilDiv (total limit : Nat) : Nat :=
  (total + limit - 1) / limit

/-! ## Routing -/

/-- The HTTP methods the routers register. -/
inductive Method
  | GET
  | POST
  | PUT
  | DELETE
  deriving DecidableEq, Repr

/-- A registered route: method, path pattern and the handler it was given. -/
structure Route (H : Type) where
  method : Method
  pattern : String
  handler : H
  deriving Repr

/-- The handlers of `routes/scripts.js`, named after what they serve. -/
inductive ScriptsHandler
  | list
  | getById
  | update
  | delete
  | download
  | stats
  | search
  deriving DecidableEq, Repr

/-- The handlers of `routes/conversations.js`. -/
inductive ConversationsHandler
  | list
  | getById
  | update
  | delete
  | addMessage
  | search
  deriving DecidableEq, Repr

/-- The routes of `routes/scripts.js` in the order of their registration. -/
def scriptsRouter : List (Route ScriptsHandler) :=
  [ ⟨Method.GET, "/", ScriptsHandler.list⟩,
    ⟨Method.GET, "/:id", ScriptsHandler.getById⟩,
    ⟨Method.PUT, "/:id", ScriptsHandler.update⟩,
    ⟨Method.DELETE, "/:id", ScriptsHandler.delete⟩,
    ⟨Method.GET, "/:id/download", ScriptsHandler.download⟩,
    ⟨Method.GET, "/stats", ScriptsHandler.stats⟩,
    ⟨Method.GET, "/search", ScriptsHandler.search⟩ ]

/-- The routes of `routes/conversations.js` in the order of their registration. -/
def conversationsRouter : List (Route ConversationsHandler) :=
  [ ⟨Method.GET, "/", ConversationsHandler.list⟩,
    ⟨Method.GET, "/:id", ConversationsHandler.getById⟩,
    ⟨Method.PUT, "/:id", ConversationsHandler.update⟩,
    ⟨Method.DELETE, "/:id", ConversationsHandler.delete⟩,
    ⟨Method.POST, "/:id/messages", ConversationsHandler.addMessage⟩,
    ⟨Method.GET, "/search", ConversationsHandler.search⟩ ]

/-- The method `split('/')` on character lists. -/
def splitSlash : List Char → List (List Char)
  | [] => [[]]
  | c :: rest =>
    if c = '/' then [] :: splitSlash rest
    else
      match splitSlash rest with
      | [] => [[c]]
      | seg :: segs => (c :: seg) :: segs

/-- The segments of a path or pattern: the text after the leading `/`, without one
optional trailing `/`, split at `/`; `none` when the leading `/` is missing. -/
def pathSegments (p : List Char) : Option (List (List Char)) :=
  match p with
  | '/' :: rest =>
    if rest = [] then some []
    else some (splitSlash (if rest.getLast? = some '/' then rest.dropLast else rest))
  | _ => none

/-- One segment of a pattern against one segment of a path: `:name` takes any
non-empty segment, a literal takes itself in any letter case. -/
def segmentMatches (pat seg : List Char) : Bool :=
  match pat with
  | ':' :: _ => !seg.isEmpty
  | _ => pat.map Char.toLower == seg.map Char.toLower

/-- All segments of a pattern against all segments of a path. -/
def segmentsMatch : List (List Char) → List (List Char) → Bool
  | [], [] => true
  | pat :: pats, seg :: segs => segmentMatches pat seg && segmentsMatch pats segs
  | _, _ => false

/-- Express path matching for the patterns the routers use (literals and `:name`
segments, non-strict, case-insensitive). -/
def pathMatches (pattern path : String) : Bool :=
  match pathSegments pattern.data, pathSegments path.data with
  | some pats, some segs => segmentsMatch pats segs
  | _, _ => false

/-- First-match routing: the handler of the first registered route whose method and
pattern fit the request. No handler of these routers calls `next()`. -/
def dispatch {H : Type} (router : List (Route H)) (m : Method) (path : String) : Option H :=
  (router.find? fun r => r.method == m && pathMatches r.pattern path).map fun r => r.handler

/-! ## `routes/chat.js` -/

/-- An entry of `conversation.messages`. -/
structure Message where
  type : String
  content : String
  timestamp : Nat
  deriving DecidableEq, Repr

/-- Modelled from the spec: the document type of `../models/Conversation`, which is
not among the sources, with the fields `chat.js` reads and writes. -/
structure Conversation where
  id : String
  title : String
  outputType : String
  messages : List Message
  deriving DecidableEq, Repr

/-- The body of a chat request; `none` is `undefined`. -/
structure ChatBody where
  message : Option String := none
  outputType : Option String := none
  conversationId : Option String := none
  deriving DecidableEq, Repr

/-- The body of the request sent to `/generate`. -/
structure GenerateRequest where
  prompt : String
  outputType : String
  conversationHistory : List Message
  deriving DecidableEq, Repr

/-- The JSON bodies of the chat handler; `conversation` is the document whose
`getSummary()` is sent. -/
inductive ChatResBody
  | error (error : String)
  | reply (conversationId : String) (response : String) (conversation : Conversation)
  | unavailable (error : String) (conversationId : String) (response : String)
      (conversation : Conversation)
  deriving DecidableEq, Repr

/-- An answer of the chat handler. -/
structure ChatResponse where
  code : Nat
  body : ChatResBody
  deriving DecidableEq, Repr

/-- Outcomes of the calls the chat handler awaits. `generate = none` is a transport
error or a non-2xx answer; `some c` is an answer whose `data.content` is `c`. -/
structure ChatEnv where
  now : Nat := 0
  newId : String := "c0"
  findOk : Bool := true
  addUserOk : Bool := true
  generate : Option (Option String) := some (some "FADE IN:")
  addAiOk : Bool := true
  saveOk : Bool := true
  addErrorOk : Bool := true
  saveErrorOk : Bool := true

/-- The effects the chat handler attempts. -/
inductive ChatEffect
  | findConversation (id : String) (ok : Bool)
  | saveConversation (id : String) (ok : Bool)
  | generatePost (req : GenerateRequest) (ok : Bool)
  deriving DecidableEq, Repr

/-- State of the chat handler: the stored conversations, the variable
`conversation` (`none` while it is `undefined`) and the log. -/
structure ChatState where
  conversations : List Conversation
  conversation : Option Conversation := none
  log : List ChatEffect := []
  deriving DecidableEq, Repr

/-- Chat handlers: exceptions over state. -/
abbrev ChatHandler := ExceptT Unit (StateM ChatState)

/-- Run a chat handler from a state. -/
def chatExec {α : Type} (h : ChatHandler α) (s : ChatState) : Except Unit α × ChatState :=
  (ExceptT.run h).run s

/-- Record an attempted effect of the chat handler. -/
def chatEmit (e : ChatEffect) : ChatHandler Unit :=
  modify fun s => { s with log := s.log ++ [e] }

/-- The call `array.slice(-n)`, for `n > 0`: the last `n` elements, or all of them. -/
def jsSliceLast {α : Type} (l : List α) (n : Nat) : List α :=
  l.drop (l.length - n)

/-- The stored conversations after `conv` is written: it takes the place of the
stored document of its id, or is added. -/
def upsertConversation (convs : List Conversation) (conv : Conversation) :
    List Conversation :=
  if convs.any (fun c => c.id = conv.id) then
    convs.map fun c => if c.id = conv.id then conv else c
  else convs ++ [conv]

/-- The query `Conversation.findById(id)`. -/
def findConversation (env : ChatEnv) (id : String) : ChatHandler (Option Conversation) := do
  if env.findOk then
    chatEmit (ChatEffect.findConversation id true)
    let s ← get
    pure (s.conversations.find? fun c => c.id = id)
  else
    chatEmit (ChatEffect.findConversation id false)
    throw ()

/-- The call `conversation.save()`: writes the variable `conversation` to the store;
throws when the store fails, or (a `TypeError`) when the variable is `undefined`. -/
def saveConversation (ok : Bool) : ChatHandler Unit := do
  let s ← get
  match s.conversation with
  | none => throw ()
  | some conv =>
    if ok then
      set { s with conversations := upsertConversation s.conversations conv }
      chatEmit (ChatEffect.saveConversation conv.id true)
    else
      chatEmit (ChatEffect.saveConversation conv.id false)
      throw ()

/-- Modelled from the spec: the method `addMessage` of `../models/Conversation`,
which is not among the sources. It appends the message to `messages` of the
document in memory and saves the document; the appended message stays in memory
when the save throws. -/
def addMessage (env : ChatEnv) (ok : Bool) (type content : String) : ChatHandler Unit := do
  let s ← get
  match s.conversation with
  | none => throw ()
  | some conv =>
    let pushed : Conversation :=
      { conv with messages := conv.messages ++ [⟨type, content, env.now⟩] }
    set { s with conversation := some pushed }
    saveConversation ok

/-- The call `axios.post(AI_SERVICE_URL + '/generate', body)`; the result is
`aiResponse.data.content`. -/
def axiosPostGenerate (env : ChatEnv) (req : GenerateRequest) :
    ChatHandler (Option String) := do
  match env.generate with
  | some content =>
    chatEmit (ChatEffect.generatePost req true)
    pure content
  | none =>
    chatEmit (ChatEffect.generatePost req false)
    throw ()

/-- The value of the variable `conversation`; reading a field of `undefined` throws. -/
def currentConversation : ChatHandler Conversation := do
  let s ← get
  match s.conversation with
  | some conv => pure conv
  | none => throw ()

/-- The text the handler stores and sends when the service call fails. -/
def chatErrorText : String := "I apologize, but I encountered an error. Please try again."

/-- The inner `try` / `catch (aiError)` of the chat handler: the request to the
service with the last ten messages, then the answer. -/
def chatGenerate (env : ChatEnv) (message outputType : String) : ChatHandler ChatResponse :=
  tryCatch
    (do
      let conv ← currentConversation
      let aiResponse ← axiosPostGenerate env
        { prompt := message, outputType := outputType,
          conversationHistory := jsSliceLast conv.messages 10 }
      let aiContent := orElseStr aiResponse
        "I apologize, but I encountered an error generating a response."
      addMessage env env.addAiOk "ai" aiContent
      saveConversation env.saveOk
      let conv ← currentConversation
      return ⟨200, ChatResBody.reply conv.id aiContent conv⟩)
    fun _ => do
      addMessage env env.addErrorOk "ai" chatErrorText
      saveConversation env.saveErrorOk
      let conv ← currentConversation
      return ⟨500, ChatResBody.unavailable "AI service unavailable" conv.id chatErrorText conv⟩

/-- The handler of `POST /api/chat`. -/
def postChat (env : ChatEnv) (body : ChatBody) : ChatHandler ChatResponse :=
  tryCatch
    (do
      let outputType := body.outputType.getD "script"
      if !truthy body.message then
        return ⟨400, ChatResBody.error "Message is required"⟩
      let message := body.message.getD ""
      if truthy body.conversationId then
        let found ← findConversation env (body.conversationId.getD "")
        match found with
        | none => return ⟨404, ChatResBody.error "Conversation not found"⟩
        | some conv => modify fun s => { s with conversation := some conv }
      else
        let created : Conversation :=
          { id := env.newId, title := String.mk (message.data.take 50) ++ "...",
            outputType := outputType, messages := [] }
        modify fun s => { s with conversation := some created }
      addMessage env env.addUserOk "user" message
      chatGenerate env message outputType)
    fun _ => return ⟨500, ChatResBody.error "Internal server error"⟩

/-- The requests to `/generate` an execution sent. -/
def generatePosts : List ChatEffect → List GenerateRequest
  | [] => []
  | ChatEffect.generatePost req _ :: rest => req :: generatePosts rest
  | _ :: rest => generatePosts rest

/-- A stored conversation of twelve messages. -/
def longConversation : Conversation :=
  { id := "c9", title := "t", outputType := "script",
    messages := (List.range 12).map fun i => ⟨"user", toString i, i⟩ }

/-- A chat request that continues `longConversation`. -/
def continueChat : ChatBody := { message := some "and then?", conversationId := some "c9" }

/-! ## Running handlers -/

section ExecLemmas
variable {α β : Type}

theorem exec_pure (a : α) (s : HState) : exec (pure a : Handler α) s = (Except.ok a, s) := rfl

theorem exec_throw (s : HState) : exec (throw () : Handler α) s = (Except.error (), s) := rfl

theorem exec_bind (x : Handler α) (f : α → Handler β) (s : HState) :
    exec (x >>= f) s =
      match exec x s with
      | (Except.ok a, s1) => exec (f a) s1
      | (Except.error e, s1) => (Except.error e, s1) := by
  simp only [exec, ExceptT.run, bind, ExceptT.bind, ExceptT.mk, StateT.bind, StateT.run,
    ExceptT.bindCont]
  rcases h : x s with ⟨r, s1⟩
  cases r <;> simp [h, pure, StateT.pure]

theorem exec_map (f : α → β) (x : Handler α) (s : HState) :
    exec (f <$> x) s =
      match exec x s with
      | (Except.ok a, s1) => (Except.ok (f a), s1)
      | (Except.error e, s1) => (Except.error e, s1) := by
  rw [← bind_pure_comp, exec_bind]
  rcases h : exec x s with ⟨r, s1⟩
  cases r <;> rfl

theorem exec_tryCatch (x : Handler α) (f : Unit → Handler α) (s : HState) :
    exec (tryCatch x f) s =
      match exec x s with
      | (Except.ok a, s1) => (Except.ok a, s1)
      | (Except.error e, s1) => exec (f e) s1 := by
  simp only [exec, ExceptT.run, tryCatch, tryCatchThe, MonadExceptOf.tryCatch,
    ExceptT.tryCatch, ExceptT.mk, bind, StateT.bind, StateT.run]
  rcases h : x s with ⟨r, s1⟩
  cases r <;> simp [h, pure, StateT.pure]

theorem exec_get (s : HState) : exec (get : Handler HState) s = (Except.ok s, s) := rfl

theorem exec_set (t s : HState) : exec (set t : Handler PUnit) s = (Except.ok PUnit.unit, t) :=
  rfl

theorem exec_emit (e : Effect) (s : HState) :
    exec (emit e) s = (Except.ok (), { s with log := s.log ++ [e] }) := rfl

end ExecLemmas

/-! ## The primitives, run -/

section PrimitiveLemmas
variable (env : Env) (s : HState)

theorem exec_fsReadFile (path : String) :
    exec (fsReadFile env path) s =
      match env.readFile with
      | some text => (Except.ok text, { s with log := s.log ++ [Effect.readFile path true] })
      | none => (Except.error (), { s with log := s.log ++ [Effect.readFile path false] }) := by
  cases hr : env.readFile <;>
  simp [fsReadFile, hr, exec_pure, exec_throw, exec_bind, exec_map, exec_emit]

theorem exec_fsUnlink (path : String) :
    exec (fsUnlink env path) s =
      if env.unlinkOk = true ∧ path ∈ s.world.disk then
        (Except.ok (),
          { world := s.world.removeFile path, log := s.log ++ [Effect.unlink path true] })
      else (Except.error (), { s with log := s.log ++ [Effect.unlink path false] }) := by
  by_cases h : env.unlinkOk = true ∧ path ∈ s.world.disk <;>
  simp [fsUnlink, h, exec_pure, exec_throw, exec_bind, exec_map, exec_emit, exec_get, exec_set]

theorem exec_findById (id : String) :
    exec (findById env id) s =
      if env.findOk = true then
        (Except.ok (s.world.lookup id), { s with log := s.log ++ [Effect.findById id true] })
      else (Except.error (), { s with log := s.log ++ [Effect.findById id false] }) := by
  by_cases h : env.findOk = true <;>
  simp [findById, h, exec_pure, exec_throw, exec_bind, exec_map, exec_emit, exec_get, exec_set]

theorem exec_findByIdAndDelete (id : String) :
    exec (findByIdAndDelete env id) s =
      if env.deleteOk = true then
        (Except.ok (),
          { world := s.world.removeRecord id, log := s.log ++ [Effect.deleteRecord id true] })
      else (Except.error (), { s with log := s.log ++ [Effect.deleteRecord id false] }) := by
  by_cases h : env.deleteOk = true <;>
  simp [findByIdAndDelete, h, exec_pure, exec_throw, exec_bind, exec_map, exec_emit, exec_get,
    exec_set]

theorem exec_saveNew (doc : Script) :
    exec (saveNew env doc) s =
      if env.saveOk = true ∧ s.world.lookup doc.id = none then
        (Except.ok { doc with createdAt := env.now, updatedAt := env.now },
          { world := s.world.insert { doc with createdAt := env.now, updatedAt := env.now },
            log := s.log ++ [Effect.saveNew doc.id true] })
      else (Except.error (), { s with log := s.log ++ [Effect.saveNew doc.id false] }) := by
  by_cases h : env.saveOk = true ∧ s.world.lookup doc.id = none <;>
  simp [saveNew, h, exec_pure, exec_throw, exec_bind, exec_map, exec_emit, exec_get, exec_set]

theorem exec_updateStatus (doc : Script) (st : Status) :
    exec (updateStatus env doc st) s =
      if env.updateOk st = true then
        (Except.ok { doc with status := st, updatedAt := env.now },
          { world := s.world.setStatus doc.id st env.now,
            log := s.log ++ [Effect.statusWrite doc.id st true] })
      else (Except.error (), { s with log := s.log ++ [Effect.statusWrite doc.id st false] }) := by
  by_cases h : env.updateOk st = true <;>
  simp [updateStatus, h, exec_pure, exec_throw, exec_bind, exec_map, exec_emit, exec_get,
    exec_set]

theorem exec_axiosPostTrain (req : TrainRequest) :
    exec (axiosPostTrain env req) s =
      if env.postOk = true then
        (Except.ok (), { s with log := s.log ++ [Effect.trainPost req true] })
      else (Except.error (), { s with log := s.log ++ [Effect.trainPost req false] }) := by
  by_cases h : env.postOk = true <;>
  simp [axiosPostTrain, h, exec_pure, exec_throw, exec_bind, exec_map, exec_emit]

theorem exec_postTrainCatch (file : UploadedFile) :
    exec (postTrainCatch env (some file)) s =
      (Except.ok internalError, afterCleanup env file.path s) := by
  by_cases h : env.unlinkOk = true ∧ file.path ∈ s.world.disk <;>
  simp [postTrainCatch, exec_fsUnlink, h, exec_pure, exec_bind, exec_map, exec_tryCatch,
    afterCleanup, internalError]

end PrimitiveLemmas

/-! ## The paths of the upload handler -/

section UploadPaths
variable (parseInt : String → JsNumber) (env : Env) (file : UploadedFile) (body : UploadBody)
  (s : HState)

/-- Path: `script.save()` throws. -/
theorem postTrain_save_failed (h : ¬ (env.saveOk = true ∧ s.world.lookup env.newId = none)) :
    exec (postTrain parseInt env (some file) body) s =
      (Except.ok internalError,
        afterCleanup env file.path { s with log := s.log ++ logToSave env file false }) := by
  cases hr : env.readFile <;>
  simp [postTrain, postTrainTry, exec_postTrainCatch, exec_fsReadFile, exec_saveNew, newScript,
    h, hr, exec_pure, exec_bind, exec_map, exec_tryCatch, logToSave]

/-- Path: saved, submitted, status `processing` written. -/
theorem postTrain_trained (hsave : env.saveOk = true ∧ s.world.lookup env.newId = none)
    (hpost : env.postOk = true) (hupd : env.updateOk Status.processing = true) :
    exec (postTrain parseInt env (some file) body) s =
      (Except.ok ⟨200, ResBody.uploadOk "Script uploaded successfully and sent for training"
          (summary { insertedDoc parseInt env file body with status := Status.processing })⟩,
        { world := (s.world.insert (insertedDoc parseInt env file body)).setStatus env.newId
            Status.processing env.now,
          log := s.log ++ logToSave env file true ++
            [Effect.trainPost (trainRequestOf parseInt env file body) true,
             Effect.statusWrite env.newId Status.processing true] }) := by
  cases hr : env.readFile <;>
  simp [postTrain, postTrainTry, exec_fsReadFile, exec_saveNew, exec_axiosPostTrain,
    exec_updateStatus, newScript, hsave, hpost, hupd, hr, exec_pure, exec_bind, exec_map,
    exec_tryCatch, logToSave, insertedDoc, trainRequestOf, readContent, summary]

/-- Path: saved, submission failed, status `error` written. -/
theorem postTrain_post_failed (hsave : env.saveOk = true ∧ s.world.lookup env.newId = none)
    (hpost : env.postOk = false) (hupd : env.updateOk Status.error = true) :
    exec (postTrain parseInt env (some file) body) s =
      (Except.ok ⟨500, ResBody.trainingFailed "Script uploaded but training failed"
          (summary { insertedDoc parseInt env file body with status := Status.error })⟩,
        { world := (s.world.insert (insertedDoc parseInt env file body)).setStatus env.newId
            Status.error env.now,
          log := s.log ++ logToSave env file true ++
            [Effect.trainPost (trainRequestOf parseInt env file body) false,
             Effect.statusWrite env.newId Status.error true] }) := by
  cases hr : env.readFile <;>
  simp [postTrain, postTrainTry, exec_fsReadFile, exec_saveNew, exec_axiosPostTrain,
    exec_updateStatus, newScript, hsave, hpost, hupd, hr, exec_pure, exec_bind, exec_map,
    exec_tryCatch, logToSave, insertedDoc, trainRequestOf, readContent, summary]

/-- Path: saved, submitted, the write of `processing` throws, status `error` written. -/
theorem postTrain_processing_failed
    (hsave : env.saveOk = true ∧ s.world.lookup env.newId = none)
    (hpost : env.postOk = true) (hproc : env.updateOk Status.processing = false)
    (hupd : env.updateOk Status.error = true) :
    exec (postTrain parseInt env (some file) body) s =
      (Except.ok ⟨500, ResBody.trainingFailed "Script uploaded but training failed"
          (summary { insertedDoc parseInt env file body with status := Status.error })⟩,
        { world := (s.world.insert (insertedDoc parseInt env file body)).setStatus env.newId
            Status.error env.now,
          log := s.log ++ logToSave env file true ++
            [Effect.trainPost (trainRequestOf parseInt env file body) true,
             Effect.statusWrite env.newId Status.processing false,
             Effect.statusWrite env.newId Status.error true] }) := by
  cases hr : env.readFile <;>
  simp [postTrain, postTrainTry, exec_fsReadFile, exec_saveNew, exec_axiosPostTrain,
    exec_updateStatus, newScript, hsave, hpost, hproc, hupd, hr, exec_pure, exec_bind, exec_map,
    exec_tryCatch, logToSave, insertedDoc, trainRequestOf, readContent, summary]

/-- Path: saved, submission failed, the write of `error` throws: the `catch (error)`
block runs. -/
theorem postTrain_post_and_error_failed
    (hsave : env.saveOk = true ∧ s.world.lookup env.newId = none)
    (hpost : env.postOk = false) (hupd : env.updateOk Status.error = false) :
    exec (postTrain parseInt env (some file) body) s =
      (Except.ok internalError,
        afterCleanup env file.path
          { world := s.world.insert (insertedDoc parseInt env file body),
            log := s.log ++ logToSave env file true ++
              [Effect.trainPost (trainRequestOf parseInt env file body) false,
               Effect.statusWrite env.newId Status.error false] }) := by
  cases hr : env.readFile <;>
  simp [postTrain, postTrainTry, exec_fsReadFile, exec_saveNew, exec_axiosPostTrain,
    exec_updateStatus, exec_postTrainCatch, newScript, hsave, hpost, hupd, hr, exec_pure,
    exec_bind, exec_map, exec_tryCatch, logToSave, insertedDoc, trainRequestOf, readContent]

/-- Path: saved, submitted, both status writes throw: the `catch (error)` block runs. -/
theorem postTrain_both_writes_failed
    (hsave : env.saveOk = true ∧ s.world.lookup env.newId = none)
    (hpost : env.postOk = true) (hproc : env.updateOk Status.processing = false)
    (hupd : env.updateOk Status.error = false) :
    exec (postTrain parseInt env (some file) body) s =
      (Except.ok internalError,
        afterCleanup env file.path
          { world := s.world.insert (insertedDoc parseInt env file body),
            log := s.log ++ logToSave env file true ++
              [Effect.trainPost (trainRequestOf parseInt env file body) true,
               Effect.statusWrite env.newId Status.processing false,
               Effect.statusWrite env.newId Status.error false] }) := by
  cases hr : env.readFile <;>
  simp [postTrain, postTrainTry, exec_fsReadFile, exec_saveNew, exec_axiosPostTrain,
    exec_updateStatus, exec_postTrainCatch, newScript, hsave, hpost, hproc, hupd, hr, exec_pure,
    exec_bind, exec_map, exec_tryCatch, logToSave, insertedDoc, trainRequestOf, readContent]

/-- Path: no file in the request. -/
theorem postTrain_no_file :
    exec (postTrain parseInt env none body) s =
      (Except.ok ⟨400, ResBody.error "No file uploaded"⟩, s) := by
  simp [postTrain, postTrainTry, exec_pure, exec_tryCatch]

end UploadPaths

/-! ## The store -/

section StoreLemmas
variable (w : World)

theorem lookup_insert (doc : Script) (h : w.lookup doc.id = none) :
    (w.insert doc).lookup doc.id = some doc := by
  simp only [World.lookup, World.insert] at h ⊢
  rw [List.find?_append, h]
  simp

theorem lookup_setStatus (id : String) (st : Status) (now : Nat) :
    (w.setStatus id st now).lookup id =
      (w.lookup id).map fun d => { d with status := st, updatedAt := now } := by
  simp only [World.lookup, World.setStatus]
  induction w.db with
  | nil => rfl
  | cons d rest ih =>
    by_cases hd : d.id = id
    · simp [List.find?, hd]
    · simp [List.find?, hd, ih]

theorem lookup_insert_setStatus (doc : Script) (st : Status) (now : Nat)
    (h : w.lookup doc.id = none) :
    ((w.insert doc).setStatus doc.id st now).lookup doc.id =
      some { doc with status := st, updatedAt := now } := by
  rw [lookup_setStatus, lookup_insert w doc h]
  rfl

theorem lookup_removeRecord (id : String) : (w.removeRecord id).lookup id = none := by
  simp [World.lookup, World.removeRecord, List.find?_eq_none]

theorem db_removeRecord (id : String) :
    (w.removeRecord id).db = w.db.filter (fun x => x.id ≠ id) := rfl

theorem db_removeFile (path : String) : (w.removeFile path).db = w.db := rfl

theorem disk_removeRecord (id : String) : (w.removeRecord id).disk = w.disk := rfl

theorem disk_removeFile (path : String) :
    (w.removeFile path).disk = w.disk.filter (fun p => p ≠ path) := rfl

theorem lookup_removeFile (path id : String) : (w.removeFile path).lookup id = w.lookup id :=
  rfl

theorem lookup_removeRecord_ne (id other : String) (hne : other ≠ id) :
    (w.removeRecord id).lookup other = w.lookup other := by
  obtain ⟨db, disk⟩ := w
  simp only [World.lookup, World.removeRecord]
  induction db with
  | nil => rfl
  | cons x rest ih =>
    by_cases hx : x.id = id
    · have hxo : ¬ x.id = other := fun h => hne (h ▸ hx)
      rw [List.filter_cons_of_neg (by simpa using hx),
        List.find?_cons_of_neg _ (by simpa using hxo), ih]
    · rw [List.filter_cons_of_pos (by simpa using hx)]
      by_cases hxo : x.id = other
      · rw [List.find?_cons_of_pos _ (by simpa using hxo),
          List.find?_cons_of_pos _ (by simpa using hxo)]
      · rw [List.find?_cons_of_neg _ (by simpa using hxo),
          List.find?_cons_of_neg _ (by simpa using hxo), ih]

theorem not_mem_removeFile (path : String) : path ∉ (w.removeFile path).disk := by
  simp [World.removeFile]

end StoreLemmas

/-! ## The upload route -/

section RouteLemmas
variable (parseInt : String → JsNumber) (env : Env) (f : IncomingFile) (body : UploadBody)
  (w : World)

theorem uploadSingle_accepts (h : accepts env f = true) :
    (uploadSingle env (some f)).run { world := w } =
      (Except.ok (some (storedFile env f)), afterStore env f w) := by
  simp only [accepts, Bool.and_eq_true, beq_iff_eq, decide_eq_true_eq, Option.isNone_iff_eq_none]
    at h
  obtain ⟨⟨⟨h1, h2⟩, h3⟩, h4⟩ := h
  have h0 : f.originalname ≠ "" := by
    intro h0
    rw [h0] at h2
    exact absurd h2 (by decide)
  simp [uploadSingle, h0, h1, h2, h3, Nat.not_lt.mpr h4, storedFile, afterStore, StateT.run, bind,
    StateT.bind, modify, modifyGet, MonadStateOf.modifyGet, StateT.modifyGet, pure, StateT.pure]

theorem uploadRoute_accepts (h : accepts env f = true) :
    uploadRoute parseInt env (some f) body w =
      match exec (postTrain parseInt env (some (storedFile env f)) body) (afterStore env f w) with
      | (Except.ok r, s2) => (s2, RouteResult.respond r)
      | (Except.error _, s2) => (s2, RouteResult.next ⟨false, "", "unhandled"⟩) := by
  simp only [uploadRoute, uploadSingle_accepts env f w h]

theorem path_mem_afterStore : (storedFile env f).path ∈ (afterStore env f w).world.disk := by
  simp [afterStore]

end RouteLemmas

/-! ## The status query and the delete handler, run -/

section QueryLemmas
variable (env : Env) (s : HState) (id : String)

theorem exec_getTrainStatus :
    exec (getTrainStatus env id) s =
      if env.findOk = true then
        (Except.ok
          (match s.world.lookup id with
            | none => ⟨404, ResBody.error "Script not found"⟩
            | some d => ⟨200, ResBody.status (statusView d)⟩),
          { s with log := s.log ++ [Effect.findById id true] })
      else (Except.ok internalError, { s with log := s.log ++ [Effect.findById id false] }) := by
  by_cases h : env.findOk = true
  · cases hl : s.world.lookup id <;>
    simp [getTrainStatus, exec_findById, h, hl, exec_pure, exec_bind, exec_map, exec_tryCatch,
      statusView]
  · simp [getTrainStatus, exec_findById, h, exec_pure, exec_bind, exec_map, exec_tryCatch,
      internalError]

theorem exec_deleteScript_found (d : Script) (hf : env.findOk = true)
    (hl : s.world.lookup id = some d) :
    exec (deleteScript env id) s =
      if env.deleteOk = true then
        (Except.ok ⟨200, ResBody.deleted "Script deleted successfully" id⟩,
          { world :=
              (if env.unlinkOk = true ∧ d.filePath ∈ s.world.disk
                then s.world.removeFile d.filePath else s.world).removeRecord id,
            log := s.log ++ [Effect.findById id true,
              Effect.unlink d.filePath (decide (env.unlinkOk = true ∧ d.filePath ∈ s.world.disk)),
              Effect.deleteRecord id true] })
      else
        (Except.ok internalError,
          { world :=
              if env.unlinkOk = true ∧ d.filePath ∈ s.world.disk
                then s.world.removeFile d.filePath else s.world,
            log := s.log ++ [Effect.findById id true,
              Effect.unlink d.filePath (decide (env.unlinkOk = true ∧ d.filePath ∈ s.world.disk)),
              Effect.deleteRecord id false] }) := by
  by_cases hu : env.unlinkOk = true ∧ d.filePath ∈ s.world.disk <;>
  by_cases hd : env.deleteOk = true <;>
  simp [deleteScript, exec_findById, exec_fsUnlink, exec_findByIdAndDelete, hf, hl, hu, hd,
    exec_pure, exec_bind, exec_map, exec_tryCatch, internalError]

theorem exec_deleteScript_missing (hf : env.findOk = true) (hl : s.world.lookup id = none) :
    exec (deleteScript env id) s =
      (Except.ok ⟨404, ResBody.error "Script not found"⟩,
        { s with log := s.log ++ [Effect.findById id true] }) := by
  simp [deleteScript, exec_findById, hf, hl, exec_pure, exec_bind, exec_map, exec_tryCatch]

theorem exec_deleteScript_lookup_failed (hf : env.findOk = false) :
    exec (deleteScript env id) s =
      (Except.ok internalError, { s with log := s.log ++ [Effect.findById id false] }) := by
  simp [deleteScript, exec_findById, hf, exec_pure, exec_bind, exec_map, exec_tryCatch,
    internalError]

end QueryLemmas

/-! ## C1 – C5: the outcomes of an accepted upload -/

/-- C1 (code evaluated at the failing input). The example upload is accepted and its
record is inserted; the training service refuses and the write of `error` throws.
The `catch (error)` block then unlinks the blob: the record stays in the store with
status `uploaded` and a `filePath` that is no longer on disk. -/
theorem C1_cleanup_unlinks_blob_of_persisted_record :
    Effect.saveNew "id0" true ∈ runPostAndErrorWriteFail.1.log ∧
    Effect.statusWrite "id0" Status.error false ∈ runPostAndErrorWriteFail.1.log ∧
    Effect.unlink examplePath true ∈ runPostAndErrorWriteFail.1.log ∧
    (runPostAndErrorWriteFail.1.world.lookup "id0").map (fun d => (d.status, d.filePath))
      = some (Status.uploaded, examplePath) ∧
    examplePath ∉ runPostAndErrorWriteFail.1.world.disk ∧
    runPostAndErrorWriteFail.2 = RouteResult.respond internalError := by
  decide

/-- C2 (counterexample). Record inserted, training submission failed, and yet the
stored status is `uploaded`, not `error`; the caller gets the bare 500 without an
artifact, and the status query answers `uploaded`. -/
theorem C2_counterexample :
    Effect.saveNew "id0" true ∈ runPostAndErrorWriteFail.1.log ∧
    trainPosts runPostAndErrorWriteFail.1.log ≠ [] ∧
    (∀ req, Effect.trainPost req true ∉ runPostAndErrorWriteFail.1.log) ∧
    (runPostAndErrorWriteFail.1.world.lookup "id0").map (fun d => d.status)
      ≠ some Status.error ∧
    runPostAndErrorWriteFail.2 = RouteResult.respond ⟨500, ResBody.error "Internal server error"⟩ ∧
    (runHandler (getTrainStatus {} "id0") runPostAndErrorWriteFail.1.world).1 =
      Except.ok ⟨200, ResBody.status ⟨"id0", "script", Status.uploaded, none, 0, 0⟩⟩ := by
  refine ⟨by decide, by decide, ?_, by decide, by decide, rfl⟩
  intro req h
  have hlog : runPostAndErrorWriteFail.1.log =
      [Effect.blobWrite examplePath, Effect.readFile examplePath true,
        Effect.saveNew "id0" true,
        Effect.trainPost ⟨"id0", "", ⟨"Unknown", none, "Unknown"⟩⟩ false,
        Effect.statusWrite "id0" Status.error false, Effect.unlink examplePath true] := by
    decide
  rw [hlog] at h
  simp at h

/-- C2 (amended). For every accepted upload whose record is inserted, whose training
submission fails and whose write of `error` succeeds: the route answers with the
artifact (id, title, status `error`, file name), the stored record has status
`error`, and a later status query whose lookup completes returns that id with
status `error`. -/
theorem C2_failed_training_persists_error (parseInt : String → JsNumber) (env qenv : Env)
    (f : IncomingFile) (body : UploadBody) (w : World)
    (hacc : accepts env f = true)
    (hsave : env.saveOk = true ∧ w.lookup env.newId = none)
    (hpost : env.postOk = false)
    (hupd : env.updateOk Status.error = true)
    (hq : qenv.findOk = true) :
    (∃ msg, (uploadRoute parseInt env (some f) body w).2 =
      RouteResult.respond ⟨500, ResBody.trainingFailed msg
        ⟨env.newId, orElseStr body.title (parseName f.originalname), Status.error,
          storageFilename env.now env.random f⟩⟩) ∧
    ((uploadRoute parseInt env (some f) body w).1.world.lookup env.newId).map
      (fun d => d.status) = some Status.error ∧
    ∃ view,
      (runHandler (getTrainStatus qenv env.newId)
        (uploadRoute parseInt env (some f) body w).1.world).1 =
          Except.ok ⟨200, ResBody.status view⟩ ∧
      view.scriptId = env.newId ∧ view.status = Status.error := by
  have hsave2 : env.saveOk = true ∧ (afterStore env f w).world.lookup env.newId = none := hsave
  have hfin : (((afterStore env f w).world.insert
        (insertedDoc parseInt env (storedFile env f) body)).setStatus env.newId Status.error
          env.now).lookup env.newId =
      some { insertedDoc parseInt env (storedFile env f) body with
        status := Status.error, updatedAt := env.now } :=
    lookup_insert_setStatus (afterStore env f w).world
      (insertedDoc parseInt env (storedFile env f) body) Status.error env.now hsave2.2
  rw [uploadRoute_accepts parseInt env f body w hacc,
    postTrain_post_failed parseInt env (storedFile env f) body _ hsave2 hpost hupd]
  refine ⟨⟨_, rfl⟩, ?_, ?_⟩
  · simp only [hfin, Option.map_some']
  · simp only [runHandler, exec_getTrainStatus, hq, if_true, hfin]
    exact ⟨_, rfl, rfl, rfl⟩

/-- C2 (witness): the example upload with a refusing training service. -/
theorem C2_witness :
    accepts { postOk := false } exampleUpload = true ∧
    (runPostFail.1.world.lookup "id0").map (fun d => d.status) = some Status.error :=
  ⟨by decide,
    (C2_failed_training_persists_error exampleParseInt { postOk := false } {} exampleUpload {}
      emptyWorld (by decide) ⟨rfl, rfl⟩ rfl rfl rfl).2.1⟩

/-- C3 (counterexample). Record inserted, training submission failed, status `error`
written: the answer carries the artifact but its status code is 500, so it is not
a success response. -/
theorem C3_counterexample :
    Effect.saveNew "id0" true ∈ runPostFail.1.log ∧
    runPostFail.2 = RouteResult.respond ⟨500, ResBody.trainingFailed
      "Script uploaded but training failed" ⟨"id0", "script", Status.error, "script-0-0.txt"⟩⟩ ∧
    runPostFail.2.isSuccess = false := by
  decide

/-- C3 (amended). For every accepted upload whose record is inserted, whose training
submission fails and whose write of `error` succeeds, the route answers with status
code 500 and the error text `Script uploaded but training failed`, a failure
response, which still carries the artifact flagged with status `error`. -/
theorem C3_failed_training_answers_500_with_artifact (parseInt : String → JsNumber)
    (env : Env) (f : IncomingFile) (body : UploadBody) (w : World)
    (hacc : accepts env f = true)
    (hsave : env.saveOk = true ∧ w.lookup env.newId = none)
    (hpost : env.postOk = false)
    (hupd : env.updateOk Status.error = true) :
    (uploadRoute parseInt env (some f) body w).2 =
      RouteResult.respond ⟨500, ResBody.trainingFailed "Script uploaded but training failed"
        ⟨env.newId, orElseStr body.title (parseName f.originalname), Status.error,
          storageFilename env.now env.random f⟩⟩ ∧
    (uploadRoute parseInt env (some f) body w).2.isSuccess = false := by
  have hsave2 : env.saveOk = true ∧ (afterStore env f w).world.lookup env.newId = none := hsave
  rw [uploadRoute_accepts parseInt env f body w hacc,
    postTrain_post_failed parseInt env (storedFile env f) body _ hsave2 hpost hupd]
  exact ⟨rfl, rfl⟩

/-- C3 (witness): the example upload with a refusing training service. -/
theorem C3_witness :
    accepts { postOk := false } exampleUpload = true ∧ runPostFail.2.isSuccess = false :=
  ⟨by decide,
    (C3_failed_training_answers_500_with_artifact exampleParseInt { postOk := false }
      exampleUpload {} emptyWorld (by decide) ⟨rfl, rfl⟩ rfl rfl).2⟩

/-- C4. For every accepted upload for which the insert of the record fails: the
route attempts one unlink of the blob it just wrote, after the failed insert, and
nothing else; it answers 500 `Internal server error` whether or not the unlink
succeeded; no training request is sent, the store is unchanged, and when the unlink
succeeded the blob is gone. -/
theorem C4_failed_insert_cleans_up (parseInt : String → JsNumber) (env : Env)
    (f : IncomingFile) (body : UploadBody) (w : World)
    (hacc : accepts env f = true)
    (hsave : ¬ (env.saveOk = true ∧ w.lookup env.newId = none)) :
    (uploadRoute parseInt env (some f) body w).2 =
      RouteResult.respond ⟨500, ResBody.error "Internal server error"⟩ ∧
    (uploadRoute parseInt env (some f) body w).1.log =
      [Effect.blobWrite (storedFile env f).path,
       Effect.readFile (storedFile env f).path env.readFile.isSome,
       Effect.saveNew env.newId false,
       Effect.unlink (storedFile env f).path env.unlinkOk] ∧
    trainPosts (uploadRoute parseInt env (some f) body w).1.log = [] ∧
    (uploadRoute parseInt env (some f) body w).1.world.db = w.db ∧
    (env.unlinkOk = true →
      (storedFile env f).path ∉ (uploadRoute parseInt env (some f) body w).1.world.disk) ∧
    (env.unlinkOk = false →
      (uploadRoute parseInt env (some f) body w).1.world.disk =
        w.disk ++ [(storedFile env f).path]) := by
  have hsave2 : ¬ (env.saveOk = true ∧ (afterStore env f w).world.lookup env.newId = none) :=
    hsave
  have hmem := path_mem_afterStore env f w
  rw [uploadRoute_accepts parseInt env f body w hacc,
    postTrain_save_failed parseInt env (storedFile env f) body _ hsave2]
  cases hu : env.unlinkOk
  · simp [afterCleanup, hu, internalError, logToSave, afterStore, trainPosts]
  · simp [afterCleanup, hu, hmem, internalError, logToSave, afterStore, trainPosts,
      World.removeFile]

/-- C4 (witness): the example upload when both the insert and the unlink throw. -/
theorem C4_witness :
    accepts { saveOk := false, unlinkOk := false } exampleUpload = true ∧
    runSaveAndUnlinkFail.2 = RouteResult.respond ⟨500, ResBody.error "Internal server error"⟩ :=
  ⟨by decide,
    (C4_failed_insert_cleans_up exampleParseInt { saveOk := false, unlinkOk := false }
      exampleUpload {} emptyWorld (by decide) (by decide)).1⟩

/-- C5 (counterexample). Record inserted and training request accepted, but the
write of `processing` throws: the stored status and the reported status are
`error`, not `processing`. -/
theorem C5_counterexample :
    Effect.saveNew "id0" true ∈ runProcessingWriteFail.1.log ∧
    trainPosts runProcessingWriteFail.1.log = [⟨"id0", "", ⟨"Unknown", none, "Unknown"⟩⟩] ∧
    Effect.trainPost ⟨"id0", "", ⟨"Unknown", none, "Unknown"⟩⟩ true
      ∈ runProcessingWriteFail.1.log ∧
    (runProcessingWriteFail.1.world.lookup "id0").map (fun d => d.status)
      = some Status.error ∧
    runProcessingWriteFail.2 = RouteResult.respond ⟨500, ResBody.trainingFailed
      "Script uploaded but training failed" ⟨"id0", "script", Status.error, "script-0-0.txt"⟩⟩ := by
  decide

/-- C5 (amended). For every accepted upload whose record is inserted, whose training
submission succeeds and whose write of `processing` succeeds, the stored record has
status `processing` and the route answers 200 with the artifact in status
`processing`. -/
theorem C5_successful_training_persists_processing (parseInt : String → JsNumber)
    (env : Env) (f : IncomingFile) (body : UploadBody) (w : World)
    (hacc : accepts env f = true)
    (hsave : env.saveOk = true ∧ w.lookup env.newId = none)
    (hpost : env.postOk = true)
    (hupd : env.updateOk Status.processing = true) :
    (uploadRoute parseInt env (some f) body w).2 =
      RouteResult.respond ⟨200, ResBody.uploadOk
        "Script uploaded successfully and sent for training"
        ⟨env.newId, orElseStr body.title (parseName f.originalname), Status.processing,
          storageFilename env.now env.random f⟩⟩ ∧
    ((uploadRoute parseInt env (some f) body w).1.world.lookup env.newId).map
      (fun d => d.status) = some Status.processing ∧
    statusTrace (uploadRoute parseInt env (some f) body w).1.log =
      [Status.uploaded, Status.processing] := by
  have hsave2 : env.saveOk = true ∧ (afterStore env f w).world.lookup env.newId = none := hsave
  have hfin : (((afterStore env f w).world.insert
        (insertedDoc parseInt env (storedFile env f) body)).setStatus env.newId
          Status.processing env.now).lookup env.newId =
      some { insertedDoc parseInt env (storedFile env f) body with
        status := Status.processing, updatedAt := env.now } :=
    lookup_insert_setStatus (afterStore env f w).world
      (insertedDoc parseInt env (storedFile env f) body) Status.processing env.now hsave2.2
  rw [uploadRoute_accepts parseInt env f body w hacc,
    postTrain_trained parseInt env (storedFile env f) body _ hsave2 hpost hupd]
  refine ⟨rfl, ?_, ?_⟩
  · simp only [hfin, Option.map_some']
  · simp [afterStore, logToSave, statusTrace]

/-- C5 (witness): the example upload with everything working. -/
theorem C5_witness :
    accepts {} exampleUpload = true ∧
    ((uploadRoute exampleParseInt {} (some exampleUpload) {} emptyWorld).1.world.lookup
      "id0").map (fun d => d.status) = some Status.processing :=
  ⟨by decide,
    (C5_successful_training_persists_processing exampleParseInt {} exampleUpload {} emptyWorld
      (by decide) ⟨rfl, rfl⟩ rfl rfl).2.1⟩

/-! ## C6: the statuses an upload writes -/

section TraceLemmas

theorem statusTrace_append (l1 l2 : List Effect) :
    statusTrace (l1 ++ l2) = statusTrace l1 ++ statusTrace l2 := by
  induction l1 with
  | nil => rfl
  | cons e rest ih =>
    cases e with
    | saveNew id ok => cases ok <;> simp [statusTrace, ih]
    | statusWrite id st ok => cases ok <;> simp [statusTrace, ih]
    | _ => simp [statusTrace, ih]

theorem statusWrites_append (l1 l2 : List Effect) :
    statusWrites (l1 ++ l2) = statusWrites l1 ++ statusWrites l2 := by
  induction l1 with
  | nil => rfl
  | cons e rest ih => cases e <;> simp [statusWrites, ih]

theorem afterCleanup_log (env : Env) (path : String) (s : HState) :
    (afterCleanup env path s).log =
      s.log ++ [Effect.unlink path (decide (env.unlinkOk = true ∧ path ∈ s.world.disk))] := by
  by_cases h : env.unlinkOk = true ∧ path ∈ s.world.disk <;> simp [afterCleanup, h]

theorem afterCleanup_db (env : Env) (path : String) (s : HState) :
    (afterCleanup env path s).world.db = s.world.db := by
  by_cases h : env.unlinkOk = true ∧ path ∈ s.world.disk <;>
  simp [afterCleanup, h, World.removeFile]

theorem uploadRoute_rejected (parseInt : String → JsNumber) (env : Env) (f : IncomingFile)
    (body : UploadBody) (w : World) (h : accepts env f = false) :
    (uploadRoute parseInt env (some f) body w).1 = { world := w, log := [] } := by
  by_cases h0 : f.originalname = ""
  · simp [uploadRoute, uploadSingle, h0, StateT.run, pure, StateT.pure, postTrain_no_file]
  by_cases h1 : f.fieldname = "script"
  · by_cases h2 : fileFilter f.originalname = true
    · cases h3 : env.mkdirError with
      | some msg =>
        simp [uploadRoute, uploadSingle, h0, h1, h2, h3, StateT.run, pure, StateT.pure]
      | none =>
        by_cases h4 : f.size ≤ fileSizeLimit
        · simp [accepts, h1, h2, h3, h4] at h
        · simp [uploadRoute, uploadSingle, h0, h1, h2, h3, h4, Nat.lt_of_not_le h4, StateT.run,
            pure, StateT.pure]
    · simp [uploadRoute, uploadSingle, h0, h1, h2, StateT.run, pure, StateT.pure]
  · simp [uploadRoute, uploadSingle, h0, h1, StateT.run, pure, StateT.pure]

theorem uploadRoute_no_file (parseInt : String → JsNumber) (env : Env) (body : UploadBody)
    (w : World) :
    uploadRoute parseInt env none body w =
      ({ world := w, log := [] }, RouteResult.respond ⟨400, ResBody.error "No file uploaded"⟩) := by
  simp [uploadRoute, uploadSingle, StateT.run, pure, StateT.pure, postTrain_no_file]

end TraceLemmas

/-- C6. In every execution of the upload route: the record is built with status
`uploaded`; every status `updateStatus` is asked to write is `processing` or
`error`, never `trained`; and the statuses the record goes through are none (no
record), `uploaded` alone, `uploaded → processing` or `uploaded → error`, so
`processing → error` never occurs. -/
theorem C6_upload_status_writes (parseInt : String → JsNumber) (env : Env)
    (incoming : Option IncomingFile) (body : UploadBody) (w : World) :
    (∀ id file content, (newScript parseInt id file body content).status = Status.uploaded) ∧
    (∀ st ∈ statusWrites (uploadRoute parseInt env incoming body w).1.log,
      st = Status.processing ∨ st = Status.error) ∧
    Status.trained ∉ statusTrace (uploadRoute parseInt env incoming body w).1.log ∧
    (statusTrace (uploadRoute parseInt env incoming body w).1.log = [] ∨
      statusTrace (uploadRoute parseInt env incoming body w).1.log = [Status.uploaded] ∨
      statusTrace (uploadRoute parseInt env incoming body w).1.log =
        [Status.uploaded, Status.processing] ∨
      statusTrace (uploadRoute parseInt env incoming body w).1.log =
        [Status.uploaded, Status.error]) ∧
    ¬ [Status.processing, Status.error] <:+:
      statusTrace (uploadRoute parseInt env incoming body w).1.log := by
  have key :
      (∀ st ∈ statusWrites (uploadRoute parseInt env incoming body w).1.log,
        st = Status.processing ∨ st = Status.error) ∧
      (statusTrace (uploadRoute parseInt env incoming body w).1.log = [] ∨
        statusTrace (uploadRoute parseInt env incoming body w).1.log = [Status.uploaded] ∨
        statusTrace (uploadRoute parseInt env incoming body w).1.log =
          [Status.uploaded, Status.processing] ∨
        statusTrace (uploadRoute parseInt env incoming body w).1.log =
          [Status.uploaded, Status.error]) := by
    cases incoming with
    | none => simp [uploadRoute_no_file, statusTrace, statusWrites]
    | some f =>
      cases hacc : accepts env f with
      | false => simp [uploadRoute_rejected parseInt env f body w hacc, statusTrace, statusWrites]
      | true =>
        rw [uploadRoute_accepts parseInt env f body w hacc]
        by_cases hsave : env.saveOk = true ∧ (afterStore env f w).world.lookup env.newId = none
        · cases hpost : env.postOk <;> cases hproc : env.updateOk Status.processing <;>
            cases herr : env.updateOk Status.error
          · rw [postTrain_post_and_error_failed parseInt env _ body _ hsave hpost herr]
            simp [afterCleanup_log, statusTrace_append, statusWrites_append, statusTrace,
              statusWrites, afterStore, logToSave]
          · rw [postTrain_post_failed parseInt env _ body _ hsave hpost herr]
            simp [statusTrace_append, statusWrites_append, statusTrace, statusWrites, afterStore,
              logToSave]
          · rw [postTrain_post_and_error_failed parseInt env _ body _ hsave hpost herr]
            simp [afterCleanup_log, statusTrace_append, statusWrites_append, statusTrace,
              statusWrites, afterStore, logToSave]
          · rw [postTrain_post_failed parseInt env _ body _ hsave hpost herr]
            simp [statusTrace_append, statusWrites_append, statusTrace, statusWrites, afterStore,
              logToSave]
          · rw [postTrain_both_writes_failed parseInt env _ body _ hsave hpost hproc herr]
            simp [afterCleanup_log, statusTrace_append, statusWrites_append, statusTrace,
              statusWrites, afterStore, logToSave]
          · rw [postTrain_processing_failed parseInt env _ body _ hsave hpost hproc herr]
            simp [statusTrace_append, statusWrites_append, statusTrace, statusWrites, afterStore,
              logToSave]
          · rw [postTrain_trained parseInt env _ body _ hsave hpost hproc]
            simp [statusTrace_append, statusWrites_append, statusTrace, statusWrites, afterStore,
              logToSave]
          · rw [postTrain_trained parseInt env _ body _ hsave hpost hproc]
            simp [statusTrace_append, statusWrites_append, statusTrace, statusWrites, afterStore,
              logToSave]
        · rw [postTrain_save_failed parseInt env _ body _ hsave]
          simp [afterCleanup_log, statusTrace_append, statusWrites_append, statusTrace,
            statusWrites, afterStore, logToSave]
  refine ⟨fun _ _ _ => rfl, key.1, ?_, key.2, ?_⟩
  · rcases key.2 with h | h | h | h <;> rw [h] <;> decide
  · rcases key.2 with h | h | h | h <;> rw [h] <;> decide

/-- C6 (witness): the one status write of the example upload with a refusing training
service is `error`. -/
theorem C6_witness :
    Status.error ∈ statusWrites runPostFail.1.log ∧
    (Status.error = Status.processing ∨ Status.error = Status.error) :=
  ⟨by decide,
    (C6_upload_status_writes exampleParseInt { postOk := false } (some exampleUpload) {}
      emptyWorld).2.1 Status.error (by decide)⟩

/-! ## C7: the upload filter -/

section PathLemmas

theorem scanChar_startPart (c : Char) (i : Nat) (st : Scan) :
    (scanChar c i st).startPart = st.startPart := by
  simp only [scanChar]
  split_ifs <;> rfl

theorem scanChar_end (c : Char) (i : Nat) (st : Scan) :
    (scanChar c i st).«end» = some (st.«end».getD (i + 1)) := by
  simp only [scanChar]
  cases h : st.«end» <;> simp only [if_true, if_false, reduceCtorEq] <;> split_ifs <;> simp [h]

theorem scanLoop_noSlash (l : List Char) (i : Nat) (st : Scan) (h : '/' ∉ l) :
    (scanLoop l i st).startPart = st.startPart ∧
    (scanLoop l i st).«end» =
      if l = [] then st.«end» else some (st.«end».getD (i + 1)) := by
  induction l generalizing i st with
  | nil => simp [scanLoop]
  | cons c rest ih =>
    have hc : c ≠ '/' := fun hc => h (by simp [hc])
    have hrest : '/' ∉ rest := fun hr => h (List.mem_cons_of_mem _ hr)
    simp only [scanLoop, hc, if_false]
    obtain ⟨ih1, ih2⟩ := ih (i - 1) (scanChar c i st) hrest
    rw [ih1, ih2, scanChar_startPart, scanChar_end]
    simp

theorem parseNameChars_append_extnameChars (p : List Char) (h : '/' ∉ p) :
    parseNameChars p ++ extnameChars p = p := by
  cases p with
  | nil => simp [parseNameChars, extnameChars, scanLoop, Scan.noExt]
  | cons c0 rest =>
    have hc : c0 ≠ '/' := fun hc => h (by simp [hc])
    have hrev : '/' ∉ (c0 :: rest).reverse := by
      rw [List.mem_reverse]
      exact h
    obtain ⟨h1, h2⟩ :=
      scanLoop_noSlash (c0 :: rest).reverse ((c0 :: rest).length - 1) ({} : Scan) hrev
    have hne : (c0 :: rest).reverse ≠ [] := by simp
    have hlen : (c0 :: rest).length - 1 + 1 = (c0 :: rest).length := by simp
    simp only [hne, if_false, Option.getD, hlen] at h1 h2
    simp only [parseNameChars, extnameChars, hc, decide_False, List.drop_zero,
      Bool.false_eq_true, if_false, and_false]
    generalize scanLoop (c0 :: rest).reverse ((c0 :: rest).length - 1) ({} : Scan) = st
      at h1 h2 ⊢
    obtain ⟨sd, sp, e, ms, pds⟩ := st
    simp only at h1 h2
    subst h1 h2
    cases sd with
    | none => simp [Scan.noExt, jsSlice]
    | some d =>
      cases hn : Scan.noExt ⟨some d, 0, some (c0 :: rest).length, ms, pds⟩
      · simp [jsSlice, List.take_take]
      · simp [jsSlice]

theorem parseName_append_extname (n : String) (h : '/' ∉ n.data) :
    parseName n ++ extname n = n := by
  have := parseNameChars_append_extnameChars n.data h
  simp only [parseName, extname]
  show String.mk (parseNameChars n.data ++ extnameChars n.data) = n
  rw [this]

theorem scanLoop_append (l1 l2 : List Char) (i : Nat) (st : Scan) (h : '/' ∉ l1) :
    scanLoop (l1 ++ l2) i st = scanLoop l2 (i - l1.length) (scanLoop l1 i st) := by
  induction l1 generalizing i st with
  | nil => simp [scanLoop]
  | cons c rest ih =>
    have hc : c ≠ '/' := fun hc => h (by simp [hc])
    have hrest : '/' ∉ rest := fun hr => h (List.mem_cons_of_mem _ hr)
    simp only [List.cons_append, scanLoop, hc, if_false, List.length_cons]
    have := ih (i - 1) (scanChar c i st) hrest
    rw [show rest.append l2 = rest ++ l2 from rfl, this]
    congr 1
    omega

theorem scanChar_plain (c : Char) (i : Nat) (st : Scan) (hd : c ≠ '.')
    (hs : st.startDot = none) (e : Nat) (he : st.«end» = some e) :
    scanChar c i st = st := by
  simp [scanChar, hd, hs, he]

theorem scanLoop_plain (l : List Char) (i : Nat) (st : Scan) (h1 : '/' ∉ l) (h2 : '.' ∉ l)
    (hs : st.startDot = none) (e : Nat) (he : st.«end» = some e) :
    scanLoop l i st = st := by
  induction l generalizing i with
  | nil => rfl
  | cons c rest ih =>
    have hc : c ≠ '/' := fun hc => h1 (by simp [hc])
    have hd : c ≠ '.' := fun hc => h2 (by simp [hc])
    simp only [scanLoop, hc, if_false, scanChar_plain c i st hd hs e he]
    exact ih (i - 1) (fun hr => h1 (List.mem_cons_of_mem _ hr))
      (fun hr => h2 (List.mem_cons_of_mem _ hr))

theorem scanLoop_plain_init (l : List Char) (i : Nat) (h1 : '/' ∉ l) (h2 : '.' ∉ l) :
    scanLoop l i {} =
      if l = [] then {} else { matchedSlash := false, «end» := some (i + 1) } := by
  cases l with
  | nil => rfl
  | cons c rest =>
    have hc : c ≠ '/' := fun hc => h1 (by simp [hc])
    have hd : c ≠ '.' := fun hc => h2 (by simp [hc])
    simp only [scanLoop, hc, if_false, reduceCtorEq]
    have hstep : scanChar c i {} = { matchedSlash := false, «end» := some (i + 1) } := by
      simp [scanChar, hd]
    rw [hstep]
    exact scanLoop_plain rest (i - 1) _ (fun hr => h1 (List.mem_cons_of_mem _ hr))
      (fun hr => h2 (List.mem_cons_of_mem _ hr)) rfl (i + 1) rfl

theorem scanChar_after_dot (c : Char) (i : Nat) (st : Scan) (sd e : Nat)
    (hs : st.startDot = some sd) (he : st.«end» = some e) :
    scanChar c i st = { st with preDotState := if c = '.' then 1 else -1 } := by
  obtain ⟨a, b, c', d, pds⟩ := st
  simp only at hs he
  subst hs he
  by_cases hd : c = '.'
  · by_cases hp : pds = 1
    · simp [scanChar, hd, hp]
    · simp [scanChar, hd, hp]
  · simp [scanChar, hd]

theorem scanLoop_after_dot (l : List Char) (i : Nat) (st : Scan) (sd e : Nat) (h1 : '/' ∉ l)
    (hs : st.startDot = some sd) (he : st.«end» = some e) :
    scanLoop l i st =
      { st with preDotState :=
          match l.getLast? with
          | none => st.preDotState
          | some c => if c = '.' then 1 else -1 } := by
  induction l generalizing i st with
  | nil => rfl
  | cons c rest ih =>
    have hc : c ≠ '/' := fun hc => h1 (by simp [hc])
    simp only [scanLoop, hc, if_false, scanChar_after_dot c i st sd e hs he]
    have := ih (i - 1) { st with preDotState := if c = '.' then 1 else -1 }
      (fun hr => h1 (List.mem_cons_of_mem _ hr)) hs he
    rw [this]
    cases rest with
    | nil => rfl
    | cons c2 rest2 =>
      cases hgl : (c2 :: rest2).getLast? with
      | none => simp at hgl
      | some x => simp [List.getLast?_cons_cons, hgl]

theorem extnameChars_stem_ext (stem ext : List Char) (h1 : '/' ∉ stem) (h2 : '/' ∉ ext)
    (h3 : '.' ∉ ext) :
    extnameChars (stem ++ '.' :: ext) =
      if stem = [] ∨ (stem = ['.'] ∧ ext = []) then [] else '.' :: ext := by
  have hrev : (stem ++ '.' :: ext).reverse = ext.reverse ++ ('.' :: stem.reverse) := by simp
  have hlen : (stem ++ '.' :: ext).length - 1 = stem.length + ext.length := by simp
  have e1 : '/' ∉ ext.reverse := by simpa using h2
  have e2 : '.' ∉ ext.reverse := by simpa using h3
  have s1 : '/' ∉ stem.reverse := by simpa using h1
  have hdot : ('.' : Char) ≠ '/' := by decide
  have hscan : scanLoop (stem ++ '.' :: ext).reverse ((stem ++ '.' :: ext).length - 1) {} =
      { startDot := some stem.length, startPart := 0,
        «end» := some (stem.length + 1 + ext.length), matchedSlash := false,
        preDotState :=
          match stem.head? with
          | none => 0
          | some c => if c = '.' then 1 else -1 } := by
    rw [hrev, hlen, scanLoop_append _ _ _ _ e1, scanLoop_plain_init _ _ e1 e2]
    simp only [List.length_reverse, Nat.add_sub_cancel, scanLoop, hdot, if_false]
    by_cases hext : ext = []
    · subst hext
      have hstep : scanChar '.' stem.length {} =
          { startDot := some stem.length, matchedSlash := false,
            «end» := some (stem.length + 1) } := by
        simp [scanChar]
      simp only [List.reverse_nil, if_true, hstep]
      rw [scanLoop_after_dot _ _ _ stem.length (stem.length + 1) s1 rfl rfl]
      simp [List.getLast?_reverse]
    · have hext2 : ext.reverse ≠ [] := by simpa using hext
      have hstep : scanChar '.' stem.length
            ({ matchedSlash := false, «end» := some (stem.length + ext.length + 1) } : Scan) =
          { startDot := some stem.length, matchedSlash := false,
            «end» := some (stem.length + ext.length + 1) } := by
        simp [scanChar]
      simp only [if_neg hext2, hstep]
      rw [scanLoop_after_dot _ _ _ stem.length (stem.length + ext.length + 1) s1 rfl rfl]
      simp [List.getLast?_reverse, Nat.add_assoc, Nat.add_comm 1]
  have hslice : jsSlice (stem ++ '.' :: ext) stem.length (stem.length + 1 + ext.length) =
      '.' :: ext := by
    unfold jsSlice
    have hfull : (stem ++ '.' :: ext).length = stem.length + 1 + ext.length := by
      simp [Nat.add_assoc, Nat.add_comm 1]
    rw [← hfull, List.take_length, List.drop_left]
  unfold extnameChars
  simp only [hscan, hslice]
  cases stem with
  | nil => simp [Scan.noExt]
  | cons c0 rest =>
    by_cases hc : c0 = '.'
    · subst hc
      cases rest with
      | nil =>
        cases ext with
        | nil => simp [Scan.noExt]
        | cons x xs =>
          simp [Scan.noExt]
          omega
      | cons r rs => simp [Scan.noExt]
    · simp [Scan.noExt, hc]

theorem extnameChars_plain (p : List Char) (h1 : '/' ∉ p) (h2 : '.' ∉ p) :
    extnameChars p = [] := by
  have e1 : '/' ∉ p.reverse := by simpa using h1
  have e2 : '.' ∉ p.reverse := by simpa using h2
  unfold extnameChars
  rw [scanLoop_plain_init _ _ e1 e2]
  by_cases hp : p.reverse = [] <;> simp [hp, Scan.noExt]

theorem parseNameChars_stem_ext (stem ext : List Char) (h1 : '/' ∉ stem) (h2 : '/' ∉ ext)
    (h3 : '.' ∉ ext) (h4 : stem ≠ []) (h5 : ext ≠ []) :
    parseNameChars (stem ++ '.' :: ext) = stem := by
  have hdot : ('/' : Char) ≠ '.' := by decide
  have hno : '/' ∉ stem ++ '.' :: ext := by
    simp only [List.mem_append, List.mem_cons, not_or]
    exact ⟨h1, hdot, h2⟩
  have h := parseNameChars_append_extnameChars (stem ++ '.' :: ext) hno
  rw [extnameChars_stem_ext stem ext h1 h2 h3, if_neg (by simp [h4, h5])] at h
  exact List.append_cancel_right h

theorem fileFilter_iff (n : String) :
    fileFilter n = true ↔
      (extname n).data.map Char.toLower ∈
        [".txt".data, ".pdf".data, ".doc".data, ".docx".data] := by
  simp only [fileFilter, allowedTypes, toLowerCase, List.contains_eq_any_beq, List.any_cons,
    List.any_nil, Bool.or_false, Bool.or_eq_true, beq_iff_eq, List.mem_cons, List.mem_singleton,
    List.not_mem_nil, or_false, String.ext_iff]

theorem fileFilter_stem_ext (n : String) (stem ext : List Char) (hn : n.data = stem ++ '.' :: ext)
    (h1 : '/' ∉ stem) (h2 : '/' ∉ ext) (h3 : '.' ∉ ext) :
    fileFilter n = true ↔
      stem ≠ [] ∧ ext.map Char.toLower ∈ ["txt".data, "pdf".data, "doc".data, "docx".data] := by
  rw [fileFilter_iff]
  simp only [extname, hn, extnameChars_stem_ext stem ext h1 h2 h3]
  by_cases hs : stem = []
  · simp [hs]
  · by_cases he : ext = []
    · subst he
      by_cases hd : stem = ['.'] <;> simp [hs, hd]
    · have hcond : ¬ (stem = [] ∨ (stem = ['.'] ∧ ext = [])) := by simp [hs, he]
      rw [if_neg hcond]
      simp [hs]

end PathLemmas

/-- C7 (counterexample). The filter refuses the empty file name, and yet a file part
with that name in the field `script` is answered 400 `No file uploaded`, which does
not carry `Invalid file type`: multer skips the part and never asks the filter. The
executable `evil.exe` sent in the field `file` is refused by multer for its field;
the error is handed on by the error middleware, not answered with the filter's
message. -/
theorem C7_counterexample :
    fileFilter unnamedUpload.originalname = false ∧
    uploadRoute exampleParseInt {} (some unnamedUpload) {} emptyWorld =
      ({ world := emptyWorld, log := [] },
        RouteResult.respond ⟨400, ResBody.error "No file uploaded"⟩) ∧
    jsIncludes "No file uploaded" "Invalid file type" = false ∧
    fileFilter otherFieldUpload.originalname = false ∧
    uploadRoute exampleParseInt {} (some otherFieldUpload) {} emptyWorld =
      ({ world := emptyWorld, log := [] },
        RouteResult.next ⟨true, "LIMIT_UNEXPECTED_FILE", "Unexpected field"⟩) :=
  ⟨by decide, rfl, by decide, by decide, rfl⟩

/-- C7 (amended). The filter accepts a file name exactly when its extension
(`path.extname`), with `A`–`Z` lowered, is `.txt`, `.pdf`, `.doc` or `.docx`; for a
name `stem.ext` without a directory part, `ext` being what follows the last dot, that
is exactly when `stem` is not empty and the lowered `ext` is `txt`, `pdf`, `doc` or
`docx`, and a name without a dot is refused. A file with a non-empty name in the
field `script` that the filter refuses is answered 400 with the filter's message,
which contains `Invalid file type`, and the route leaves the store and the disk as
they were and attempts no effect: no blob, no record, no training request. -/
theorem C7_filter_and_rejection (parseInt : String → JsNumber) (env : Env)
    (f : IncomingFile) (body : UploadBody) (w : World) :
    (fileFilter f.originalname = true ↔
      (extname f.originalname).data.map Char.toLower ∈
        [".txt".data, ".pdf".data, ".doc".data, ".docx".data]) ∧
    (∀ stem ext : List Char, f.originalname.data = stem ++ '.' :: ext →
      '/' ∉ stem → '/' ∉ ext → '.' ∉ ext →
      (fileFilter f.originalname = true ↔
        stem ≠ [] ∧
          ext.map Char.toLower ∈ ["txt".data, "pdf".data, "doc".data, "docx".data])) ∧
    ('/' ∉ f.originalname.data → '.' ∉ f.originalname.data →
      fileFilter f.originalname = false) ∧
    (f.originalname ≠ "" → f.fieldname = "script" → fileFilter f.originalname = false →
      uploadRoute parseInt env (some f) body w =
        ({ world := w, log := [] }, RouteResult.respond ⟨400, ResBody.error invalidTypeMessage⟩) ∧
      jsIncludes invalidTypeMessage "Invalid file type" = true) := by
  refine ⟨fileFilter_iff f.originalname,
    fun stem ext hn h1 h2 h3 => fileFilter_stem_ext f.originalname stem ext hn h1 h2 h3, ?_, ?_⟩
  · intro h1 h2
    have hx : extname f.originalname = "" := by
      simp only [extname, extnameChars_plain f.originalname.data h1 h2]
    have hne : ¬ (fileFilter f.originalname = true) := by
      rw [fileFilter_iff, hx]
      decide
    simpa using hne
  · intro h0 h1 h2
    have hinc : jsIncludes invalidTypeMessage "Invalid file type" = true := by decide
    refine ⟨?_, hinc⟩
    simp [uploadRoute, uploadSingle, h0, h1, h2, StateT.run, pure, StateT.pure, errorMiddleware,
      hinc]

/-- C7 (witness): `REPORT.PDF` is accepted, by its stem `REPORT` and its extension
`PDF`; `README` has no dot and is refused; `evil.exe` is refused and nothing is
written. -/
theorem C7_witness :
    fileFilter upperPdfUpload.originalname = true ∧
    fileFilter "README" = false ∧
    fileFilter exeUpload.originalname = false ∧
    uploadRoute exampleParseInt {} (some exeUpload) {} emptyWorld =
      ({ world := emptyWorld, log := [] },
        RouteResult.respond ⟨400, ResBody.error invalidTypeMessage⟩) :=
  ⟨((C7_filter_and_rejection exampleParseInt {} upperPdfUpload {} emptyWorld).2.1
      "REPORT".data "PDF".data rfl (by decide) (by decide) (by decide)).mpr
      ⟨by decide, by decide⟩,
    (C7_filter_and_rejection exampleParseInt {} ⟨"script", "README", "text/plain", 1⟩ {}
      emptyWorld).2.2.1 (by decide) (by decide),
    by decide,
    ((C7_filter_and_rejection exampleParseInt {} exeUpload {} emptyWorld).2.2.2 (by decide) rfl
      (by decide)).1⟩

/-! ## C9, C10: deleting a script -/

/-- C9 (counterexample). The store holds `a1` and the record deletion throws: the
answer is 500, not `Script deleted successfully`, and the status query made
afterwards still answers the record. The store holds no `zz` and the lookup throws:
the answer is 500, not 404. -/
theorem C9_counterexample :
    orphanWorld.lookup "a1" = some orphanDoc ∧
    (runHandler (deleteScript { deleteOk := false } "a1") orphanWorld).1 =
      Except.ok ⟨500, ResBody.error "Internal server error"⟩ ∧
    (runHandler (getTrainStatus {} "a1")
      (runHandler (deleteScript { deleteOk := false } "a1") orphanWorld).2.world).1 =
        Except.ok ⟨200, ResBody.status ⟨"a1", "t", Status.uploaded, none, 0, 0⟩⟩ ∧
    orphanWorld.lookup "zz" = none ∧
    (runHandler (deleteScript { findOk := false } "zz") orphanWorld).1 =
      Except.ok ⟨500, ResBody.error "Internal server error"⟩ :=
  ⟨rfl, rfl, rfl, rfl, rfl⟩

/-- C9 (amended). For every store state and id, the lookup of the delete handler
completing: deleting an id with no record answers 404 `Script not found` and leaves
the store and the disk as they were; deleting an id with a record, the record
deletion completing, answers `Script deleted successfully`, the record is gone, and
a status query for that id made afterwards, its lookup completing, answers 404. -/
theorem C9_delete_unknown_and_known (env qenv : Env) (w : World) (id : String)
    (hf : env.findOk = true) :
    (w.lookup id = none →
      (runHandler (deleteScript env id) w).1 =
        Except.ok ⟨404, ResBody.error "Script not found"⟩ ∧
      (runHandler (deleteScript env id) w).2.world = w) ∧
    (∀ d, w.lookup id = some d → env.deleteOk = true → qenv.findOk = true →
      (runHandler (deleteScript env id) w).1 =
        Except.ok ⟨200, ResBody.deleted "Script deleted successfully" id⟩ ∧
      (runHandler (deleteScript env id) w).2.world.lookup id = none ∧
      (runHandler (getTrainStatus qenv id) (runHandler (deleteScript env id) w).2.world).1 =
        Except.ok ⟨404, ResBody.error "Script not found"⟩) := by
  constructor
  · intro hl
    have hl2 : ({ world := w } : HState).world.lookup id = none := hl
    rw [runHandler, exec_deleteScript_missing env _ id hf hl2]
    exact ⟨rfl, rfl⟩
  · intro d hl hd hq
    have hl2 : ({ world := w } : HState).world.lookup id = some d := hl
    have hgone : (runHandler (deleteScript env id) w).2.world.lookup id = none := by
      rw [runHandler, exec_deleteScript_found env _ id d hf hl2, if_pos hd]
      exact lookup_removeRecord _ id
    refine ⟨?_, hgone, ?_⟩
    · rw [runHandler, exec_deleteScript_found env _ id d hf hl2, if_pos hd]
    · rw [runHandler, exec_getTrainStatus, if_pos hq]
      have hgone2 :
          ({ world := (runHandler (deleteScript env id) w).2.world } : HState).world.lookup id =
            none := hgone
      simp only [hgone2]

/-- C9 (witness): deleting `a1` from a store that holds it, then asking for it. -/
theorem C9_witness :
    orphanWorld.lookup "a1" = some orphanDoc ∧
    (runHandler (getTrainStatus {} "a1")
      (runHandler (deleteScript {} "a1") orphanWorld).2.world).1 =
        Except.ok ⟨404, ResBody.error "Script not found"⟩ :=
  ⟨rfl,
    ((C9_delete_unknown_and_known {} {} orphanWorld "a1" rfl).2 orphanDoc rfl rfl rfl).2.2⟩

/-- C10 (counterexample). The store holds `a1`. When the lookup throws, the handler
attempts neither the unlink nor the record deletion and answers 500. When the
lookup completes and the record deletion throws, the unlink was attempted, the
record is still in the store and the answer is 500. -/
theorem C10_counterexample :
    orphanWorld.lookup "a1" = some orphanDoc ∧
    (runHandler (deleteScript { findOk := false } "a1") orphanWorld).2.log =
      [Effect.findById "a1" false] ∧
    (runHandler (deleteScript { findOk := false } "a1") orphanWorld).1 =
      Except.ok ⟨500, ResBody.error "Internal server error"⟩ ∧
    (runHandler (deleteScript { findOk := false } "a1") orphanWorld).2.world.lookup "a1" =
      some orphanDoc ∧
    (runHandler (deleteScript { deleteOk := false } "a1") orphanWorld).2.log =
      [Effect.findById "a1" true, Effect.unlink orphanDoc.filePath false,
       Effect.deleteRecord "a1" false] ∧
    (runHandler (deleteScript { deleteOk := false } "a1") orphanWorld).1 =
      Except.ok ⟨500, ResBody.error "Internal server error"⟩ ∧
    (runHandler (deleteScript { deleteOk := false } "a1") orphanWorld).2.world.lookup "a1" =
      some orphanDoc :=
  ⟨rfl, rfl, rfl, rfl, rfl, rfl, rfl⟩

/-- C10 (amended). For every record the lookup returns, the handler attempts the
unlink of its blob first and the deletion of the record next, whatever the unlink
did. When the record deletion completes, the answer is `Script deleted
successfully` and the store holds the records it held except those with this id,
so none with this id; when it throws, the answer is 500 and the store holds what
it held. The disk loses the blob exactly when the unlink succeeds. With a failing
unlink the answer and the record store are the same: the record deletion completing,
`Script deleted successfully` with the record gone and the disk as it was. -/
theorem C10_blob_failure_never_blocks_delete (env : Env) (w : World) (id : String)
    (d : Script) (hf : env.findOk = true) (hl : w.lookup id = some d) :
    (runHandler (deleteScript env id) w).2.log =
      [Effect.findById id true,
       Effect.unlink d.filePath (decide (env.unlinkOk = true ∧ d.filePath ∈ w.disk)),
       Effect.deleteRecord id env.deleteOk] ∧
    (runHandler (deleteScript env id) w).1 =
      (if env.deleteOk = true
        then Except.ok ⟨200, ResBody.deleted "Script deleted successfully" id⟩
        else Except.ok ⟨500, ResBody.error "Internal server error"⟩) ∧
    (runHandler (deleteScript env id) w).2.world.db =
      (if env.deleteOk = true then w.db.filter (fun x => x.id ≠ id) else w.db) ∧
    (env.deleteOk = true →
      (runHandler (deleteScript env id) w).2.world.lookup id = none ∧
      d ∉ (runHandler (deleteScript env id) w).2.world.db ∧
      ∀ other, other ≠ id →
        (runHandler (deleteScript env id) w).2.world.lookup other = w.lookup other) ∧
    (runHandler (deleteScript env id) w).2.world.disk =
      (if env.unlinkOk = true ∧ d.filePath ∈ w.disk
        then w.disk.filter (fun p => p ≠ d.filePath) else w.disk) ∧
    (runHandler (deleteScript { env with unlinkOk := false } id) w).1 =
      (runHandler (deleteScript env id) w).1 ∧
    (runHandler (deleteScript { env with unlinkOk := false } id) w).2.world.db =
      (runHandler (deleteScript env id) w).2.world.db ∧
    (env.deleteOk = true →
      (runHandler (deleteScript { env with unlinkOk := false } id) w).1 =
        Except.ok ⟨200, ResBody.deleted "Script deleted successfully" id⟩ ∧
      (runHandler (deleteScript { env with unlinkOk := false } id) w).2.world.lookup id = none ∧
      (runHandler (deleteScript { env with unlinkOk := false } id) w).2.world.disk = w.disk ∧
      Effect.unlink d.filePath false ∈
        (runHandler (deleteScript { env with unlinkOk := false } id) w).2.log) := by
  have hl2 : ({ world := w } : HState).world.lookup id = some d := hl
  have hf2 : ({ env with unlinkOk := false } : Env).findOk = true := hf
  have hid : d.id = id := by
    have := List.find?_some hl
    simpa using this
  have hmem : ∀ w2 : World, d ∉ (w2.removeRecord id).db := by
    intro w2 hin
    have := (List.mem_filter.mp hin).2
    simp [hid] at this
  rw [runHandler, runHandler, exec_deleteScript_found env _ id d hf hl2,
    exec_deleteScript_found _ _ id d hf2 hl2]
  by_cases hd : env.deleteOk = true <;>
  by_cases hu : env.unlinkOk = true ∧ d.filePath ∈ w.disk <;>
  simp [hd, hu, internalError, db_removeRecord, db_removeFile, disk_removeRecord,
    disk_removeFile, lookup_removeRecord, lookup_removeFile, hmem] <;>
  first
  | exact ⟨by simpa [db_removeRecord, db_removeFile] using hmem (w.removeFile d.filePath),
      fun other hne => by rw [lookup_removeRecord_ne _ id other hne, lookup_removeFile]⟩
  | exact ⟨by simpa [db_removeRecord] using hmem w,
      fun other hne => lookup_removeRecord_ne _ id other hne⟩

/-- C10 (witness): the blob of `orphanDoc` is not on disk, the unlink throws, and the
record is deleted all the same. -/
theorem C10_witness :
    (({} : Env).findOk = true ∧ orphanWorld.lookup "a1" = some orphanDoc) ∧
    (runHandler (deleteScript {} "a1") orphanWorld).2.log =
      [Effect.findById "a1" true, Effect.unlink orphanDoc.filePath false,
       Effect.deleteRecord "a1" true] ∧
    (runHandler (deleteScript {} "a1") orphanWorld).2.world.db = [] :=
  ⟨⟨rfl, rfl⟩, (C10_blob_failure_never_blocks_delete {} orphanWorld "a1" orphanDoc rfl rfl).1,
    (C10_blob_failure_never_blocks_delete {} orphanWorld "a1" orphanDoc rfl rfl).2.2.1⟩

/-! ## C16: routing of `/stats` and `/search` -/

section RoutingLemmas

theorem param_takes_literal (lit : List Char) (segs : List (List Char)) (hne : lit ≠ [])
    (h : segmentsMatch [lit] segs = true) : segmentsMatch [":id".data] segs = true := by
  match segs, h with
  | [seg], h =>
    cases seg with
    | nil =>
      cases lit with
      | nil => exact absurd rfl hne
      | cons c cs =>
        simp [segmentsMatch, segmentMatches] at h
        split at h <;> simp at h
    | cons c cs => rfl
  | [], h => simp [segmentsMatch] at h
  | _ :: _ :: _, h => simp [segmentsMatch] at h

theorem id_shadows (lit path : String) (segLit : List Char) (hne : segLit ≠ [])
    (hlit : pathSegments lit.data = some [segLit])
    (h : pathMatches lit path = true) : pathMatches "/:id" path = true := by
  have h2 : pathSegments "/:id".data = some [":id".data] := by decide
  simp only [pathMatches, hlit, h2] at h ⊢
  cases hs : pathSegments path.data with
  | none => simp [hs] at h
  | some segs =>
    simp only [hs] at h ⊢
    exact param_takes_literal segLit segs hne h

theorem scripts_stats_unreachable (path : String) :
    dispatch scriptsRouter Method.GET path ≠ some ScriptsHandler.stats := by
  have hst := id_shadows "/stats" path "stats".data (by decide) (by decide)
  simp only [dispatch, scriptsRouter, List.find?]
  cases h1 : pathMatches "/" path <;> cases h2 : pathMatches "/:id" path <;>
    cases h3 : pathMatches "/:id/download" path <;> cases h4 : pathMatches "/stats" path <;>
    cases h5 : pathMatches "/search" path <;> simp_all

theorem scripts_search_unreachable (path : String) :
    dispatch scriptsRouter Method.GET path ≠ some ScriptsHandler.search := by
  have hst := id_shadows "/search" path "search".data (by decide) (by decide)
  simp only [dispatch, scriptsRouter, List.find?]
  cases h1 : pathMatches "/" path <;> cases h2 : pathMatches "/:id" path <;>
    cases h3 : pathMatches "/:id/download" path <;> cases h4 : pathMatches "/stats" path <;>
    cases h5 : pathMatches "/search" path <;> simp_all

theorem conversations_search_unreachable (path : String) :
    dispatch conversationsRouter Method.GET path ≠ some ConversationsHandler.search := by
  have hst := id_shadows "/search" path "search".data (by decide) (by decide)
  have hm : (Method.POST == Method.GET) = false := rfl
  simp only [dispatch, conversationsRouter, List.find?, hm, Bool.false_and]
  cases h1 : pathMatches "/" path <;> cases h2 : pathMatches "/:id" path <;>
    cases h5 : pathMatches "/search" path <;> simp_all

end RoutingLemmas

/-- C16 (code evaluated at the failing inputs). Under first-match routing in the
order of registration, `GET /stats` and `GET /search` on the scripts router and
`GET /search` on the conversations router are answered by the `/:id` handler of
their router, which is registered before them; no `GET` path at all reaches the
statistics handler or either search handler. -/
theorem C16_id_route_shadows_stats_and_search :
    dispatch scriptsRouter Method.GET "/stats" = some ScriptsHandler.getById ∧
    dispatch scriptsRouter Method.GET "/search" = some ScriptsHandler.getById ∧
    dispatch conversationsRouter Method.GET "/search" = some ConversationsHandler.getById ∧
    (∀ path, dispatch scriptsRouter Method.GET path ≠ some ScriptsHandler.stats) ∧
    (∀ path, dispatch scriptsRouter Method.GET path ≠ some ScriptsHandler.search) ∧
    (∀ path, dispatch conversationsRouter Method.GET path ≠ some ConversationsHandler.search) :=
  ⟨by decide, by decide, by decide, scripts_stats_unreachable, scripts_search_unreachable,
    conversations_search_unreachable⟩

/-! ## C18: the pagination block -/

section PaginationLemmas

theorem mul_le_ceilDiv (total limit : Nat) (hl : 1 ≤ limit) :
    total ≤ ceilDiv total limit * limit := by
  unfold ceilDiv
  have h1 := Nat.div_add_mod (total + limit - 1) limit
  have h2 := Nat.mod_lt (total + limit - 1) (show 0 < limit by omega)
  rw [Nat.mul_comm] at h1
  generalize (total + limit - 1) / limit * limit = q at h1 ⊢
  omega

theorem ceilDiv_le (total limit k : Nat) (hl : 1 ≤ limit) (h : total ≤ k * limit) :
    ceilDiv total limit ≤ k := by
  unfold ceilDiv
  apply Nat.le_of_lt_succ
  rw [Nat.div_lt_iff_lt_mul (by omega), Nat.succ_mul]
  omega

theorem lt_ceilDiv_iff (page total limit : Nat) (hl : 1 ≤ limit) :
    page < ceilDiv total limit ↔ page * limit < total := by
  unfold ceilDiv
  rw [Nat.lt_iff_add_one_le, Nat.le_div_iff_mul_le (by omega)]
  have : (page + 1) * limit = page * limit + limit := by ring
  omega

theorem ceilDiv_eq_ceil (total limit : Nat) (hl : 1 ≤ limit) :
    ceilDiv total limit = ⌈(total : ℚ) / (limit : ℚ)⌉₊ := by
  have hpos : (0 : ℚ) < (limit : ℚ) := by exact_mod_cast hl
  apply le_antisymm
  · apply ceilDiv_le total limit _ hl
    have h := Nat.le_ceil ((total : ℚ) / (limit : ℚ))
    rw [div_le_iff₀ hpos] at h
    exact_mod_cast h
  · rw [Nat.ceil_le, div_le_iff₀ hpos]
    exact_mod_cast mul_le_ceilDiv total limit hl

theorem bitLength_le : ∀ (fuel n k : Nat), n < 2 ^ k → bitLength fuel n ≤ k := by
  intro fuel
  induction fuel with
  | zero => intro n k _; simp [bitLength]
  | succ fuel ih =>
    intro n k h
    unfold bitLength
    split
    · omega
    · rename_i hn
      cases k with
      | zero => simp at h; omega
      | succ k =>
        have : n / 2 < 2 ^ k := by
          rw [Nat.div_lt_iff_lt_mul (by decide)]
          rw [pow_succ] at h
          exact h
        have := ih (n / 2) k this
        omega

theorem roundToDouble_of_lt (n : Nat) (h : n < 2 ^ 53) : roundToDouble n = n := by
  have h0 : bitLength n n - 53 = 0 := Nat.sub_eq_zero_of_le (bitLength_le n n 53 h)
  unfold roundToDouble
  rw [h0]
  simp [roundHalfEven, Nat.mod_one]

theorem overflows_of_lt (n k : Nat) (hk : k ≤ 1024) (h : n < 2 ^ k) : overflows n = false := by
  have := bitLength_le n n k h
  simp [overflows]
  omega

theorem jsOfInt_natCast (n : Nat) (h : n < 2 ^ 53) : jsOfInt (n : Int) = JsNumber.finite n := by
  have h1 : overflows n = false := overflows_of_lt n 53 (by decide) h
  unfold jsOfInt
  simp [roundToDouble_of_lt n h, h1]

theorem leastShiftUp_spec (a bound : Nat) : ∀ (fuel s0 : Nat),
    bound ≤ a * 2 ^ (s0 + fuel) → (∀ s, s < s0 → a * 2 ^ s < bound) →
    bound ≤ a * 2 ^ leastShiftUp fuel a bound s0 ∧
      ∀ s, s < leastShiftUp fuel a bound s0 → a * 2 ^ s < bound := by
  intro fuel
  induction fuel with
  | zero => intro s0 h1 h2; exact ⟨by simpa [leastShiftUp] using h1, by simpa [leastShiftUp] using h2⟩
  | succ fuel ih =>
    intro s0 h1 h2
    unfold leastShiftUp
    split
    · rename_i h; exact ⟨h, h2⟩
    · rename_i h
      apply ih (s0 + 1)
      · rw [show s0 + 1 + fuel = s0 + (fuel + 1) by omega]; exact h1
      · intro s hs
        rcases Nat.lt_succ_iff_lt_or_eq.mp hs with h3 | h3
        · exact h2 s h3
        · rw [h3]; omega

theorem roundHalfEven_ceil (b k r P : Nat) (hr : r < b) (hP : 0 < P) (hb : b < 2 * P) :
    (roundHalfEven ((b * k + r) * P) b + P - 1) / P = (b * k + r + b - 1) / b := by
  have hb0 : 0 < b := by omega
  have e1 : (b * k + r) * P = b * (k * P) + r * P := by ring
  have hq : ((b * k + r) * P) / b = k * P + r * P / b := by rw [e1, Nat.mul_add_div hb0]
  have hm : ((b * k + r) * P) % b = r * P % b := by rw [e1, Nat.mul_add_mod]
  have hq1 : r * P / b < P := by
    apply Nat.div_lt_of_lt_mul
    exact Nat.mul_lt_mul_of_pos_right hr hP
  have hdm := Nat.div_add_mod (r * P) b
  have hmod := Nat.mod_lt (r * P) hb0
  have e2 : (k + 1) * P = k * P + P := by ring
  have e3 : (k + 1 + 1) * P = k * P + P + P := by ring
  have e4 : (k + 1) * b = b * k + b := by ring
  have e5 : (k + 1 + 1) * b = b * k + b + b := by ring
  have e6 : k * b = b * k := by ring
  by_cases hr0 : r = 0
  · subst hr0
    have hm0 : roundHalfEven ((b * k + 0) * P) b = k * P := by
      unfold roundHalfEven
      rw [hq, hm]
      simp
      omega
    have hL : (k * P + P - 1) / P = k := Nat.div_eq_of_lt_le (by omega) (by omega)
    have hR : (b * k + 0 + b - 1) / b = k := Nat.div_eq_of_lt_le (by omega) (by omega)
    rw [hm0, hL, hR]
  · have hlow : k * P + 1 ≤ roundHalfEven ((b * k + r) * P) b ∧
        roundHalfEven ((b * k + r) * P) b ≤ k * P + P := by
      unfold roundHalfEven
      rw [hq, hm]
      have hrP : P ≤ r * P := Nat.le_mul_of_pos_left P (by omega)
      generalize r * P / b = q1 at hq1 hdm ⊢
      generalize r * P % b = R at hdm hmod ⊢
      generalize r * P = rp at hdm hrP
      generalize k * P = kp
      by_cases hq0 : q1 = 0
      · subst hq0
        simp at hdm
        have : 2 * R > b := by omega
        simp [this]
        omega
      · split <;> omega
    generalize roundHalfEven ((b * k + r) * P) b = m at hlow
    have hL : (m + P - 1) / P = k + 1 := Nat.div_eq_of_lt_le (by omega) (by omega)
    have hR : (b * k + r + b - 1) / b = k + 1 := Nat.div_eq_of_lt_le (by omega) (by omega)
    rw [hL, hR]

theorem roundQuotient_ceil (a b : Nat) (ha : 0 < a) (ha2 : a < 2 ^ 53) (hb : 0 < b)
    (hb2 : b < 2 ^ 53) :
    ((roundQuotient a b).1 + (roundQuotient a b).2 - 1) / (roundQuotient a b).2 = ceilDiv a b ∧
      (roundQuotient a b).1 / (roundQuotient a b).2 < 2 ^ 54 := by
  have h1 : a < b * 2 ^ 53 := by
    calc a < 2 ^ 53 := ha2
      _ = 1 * 2 ^ 53 := by simp
      _ ≤ b * 2 ^ 53 := Nat.mul_le_mul_right _ hb
  have hfuel : b * 2 ^ 52 ≤ a * 2 ^ (0 + (b + 53)) := by
    have hbb : b < 2 ^ b := Nat.lt_two_pow b
    calc b * 2 ^ 52 ≤ 2 ^ b * 2 ^ 53 :=
          Nat.mul_le_mul (Nat.le_of_lt hbb) (Nat.pow_le_pow_right (by decide) (by decide))
      _ = 1 * 2 ^ (0 + (b + 53)) := by rw [Nat.zero_add, pow_add, one_mul]
      _ ≤ a * 2 ^ (0 + (b + 53)) := Nat.mul_le_mul_right _ ha
  obtain ⟨hs1, hs2⟩ := leastShiftUp_spec a (b * 2 ^ 52) (b + 53) 0 hfuel (by intro s hs; omega)
  generalize hsdef : leastShiftUp (b + 53) a (b * 2 ^ 52) 0 = s at hs1 hs2
  have hs : s ≤ 105 := by
    by_contra hcon
    have h3 := hs2 105 (by omega)
    have h4 : b * 2 ^ 52 < 2 ^ 105 := by
      calc b * 2 ^ 52 < 2 ^ 53 * 2 ^ 52 := Nat.mul_lt_mul_of_pos_right hb2 (by positivity)
        _ = 2 ^ 105 := by rw [← pow_add]
    have h5 : 2 ^ 105 ≤ a * 2 ^ 105 := Nat.le_mul_of_pos_left _ ha
    omega
  have hmin : min s 1074 = s := by omega
  have hP : 0 < 2 ^ s := by positivity
  have hb3 : b < 2 * 2 ^ s := by
    have h6 : a * 2 ^ s < 2 ^ 53 * 2 ^ s := Nat.mul_lt_mul_of_pos_right ha2 hP
    have h7 : b * 2 ^ 52 < (2 * 2 ^ s) * 2 ^ 52 := by
      calc b * 2 ^ 52 ≤ a * 2 ^ s := hs1
        _ < 2 ^ 53 * 2 ^ s := h6
        _ = (2 * 2 ^ s) * 2 ^ 52 := by ring
    exact Nat.lt_of_mul_lt_mul_right h7
  have hq : roundQuotient a b = (roundHalfEven (a * 2 ^ s) b, 2 ^ s) := by
    unfold roundQuotient
    rw [if_pos h1]
    simp only [hsdef, hmin]
  rw [hq]
  simp only
  constructor
  · have hdm := Nat.div_add_mod a b
    have hr := Nat.mod_lt a hb
    have := roundHalfEven_ceil b (a / b) (a % b) (2 ^ s) hr hP hb3
    rw [hdm] at this
    exact this
  · have hle : roundHalfEven (a * 2 ^ s) b ≤ a * 2 ^ s / b + 1 := by
      unfold roundHalfEven; split <;> omega
    have h8 : a * 2 ^ s / b ≤ a * 2 ^ s := Nat.div_le_self _ _
    have h9 : a * 2 ^ s + 1 ≤ 2 ^ 53 * 2 ^ s := Nat.mul_lt_mul_of_pos_right ha2 hP
    have h10 : 2 ^ 53 * 2 ^ s < 2 ^ s * 2 ^ 54 := by
      rw [Nat.mul_comm (2 ^ s)]
      exact Nat.mul_lt_mul_of_pos_right (Nat.pow_lt_pow_right (by decide) (by decide)) hP
    apply Nat.div_lt_of_lt_mul
    omega

theorem toNumber_of_lt (n : Nat) (h : n < 2 ^ 53) : toNumber n = JsNumber.finite n :=
  jsOfInt_natCast n h

theorem jsCeilDiv_of_lt (t l : Nat) (ht : t < 2 ^ 53) (hl : 1 ≤ l) (hl2 : l < 2 ^ 53) :
    jsCeilDiv (JsNumber.finite t) (JsNumber.finite l) = JsNumber.finite (ceilDiv t l : Nat) := by
  have hl0 : (l : Int) ≠ 0 := by exact_mod_cast (show l ≠ 0 by omega)
  by_cases ht0 : t = 0
  · subst ht0
    have : ceilDiv 0 l = 0 := by
      unfold ceilDiv
      exact Nat.div_eq_of_lt (by omega)
    simp [jsCeilDiv, hl0, this]
  · have ht1 : (t : Int) ≠ 0 := by exact_mod_cast ht0
    obtain ⟨h1, h2⟩ := roundQuotient_ceil t l (by omega) ht hl hl2
    have h3 := overflows_of_lt _ 54 (by decide) h2
    have h4 : ¬ ((t : Int) < 0) := by omega
    have h5 : ¬ ((l : Int) < 0) := by omega
    simp only [jsCeilDiv, Int.natAbs_ofNat, if_neg hl0, if_neg ht1, h3, h1, h4, h5]
    simp


theorem paginationOf_of_lt (page limit total : Nat) (hp : 1 ≤ page) (hl : 1 ≤ limit)
    (hpl : page * limit < 2 ^ 53) (ht : total < 2 ^ 53) :
    paginationOf page limit total =
      { currentPage := JsNumber.finite page
        totalPages := JsNumber.finite (ceilDiv total limit : Nat)
        total := JsNumber.finite total
        hasNext := decide (page * limit < total)
        hasPrev := decide (1 < page) } := by
  have hp2 : page < 2 ^ 53 := lt_of_le_of_lt (Nat.le_mul_of_pos_right page hl) hpl
  have hl2 : limit < 2 ^ 53 := lt_of_le_of_lt (Nat.le_mul_of_pos_left limit hp) hpl
  have hmul : jsOfInt ((page : Int) * (limit : Int)) = JsNumber.finite ((page * limit : Nat) : Int) := by
    rw [← Nat.cast_mul]
    exact jsOfInt_natCast _ hpl
  unfold paginationOf
  rw [toNumber_of_lt page hp2, toNumber_of_lt limit hl2, toNumber_of_lt total ht,
    jsCeilDiv_of_lt total limit ht hl hl2]
  simp only [jsMul, jsLt, hmul]
  simp
  norm_cast

theorem skipCount_of_lt (page limit : Nat) (hp : 1 ≤ page) (hl : 1 ≤ limit)
    (hpl : page * limit < 2 ^ 53) :
    skipCount page limit = JsNumber.finite (((page - 1) * limit : Nat) : Int) := by
  have hp2 : page < 2 ^ 53 := lt_of_le_of_lt (Nat.le_mul_of_pos_right page hl) hpl
  have hl2 : limit < 2 ^ 53 := lt_of_le_of_lt (Nat.le_mul_of_pos_left limit hp) hpl
  have h1 : ((page : Int) - 1) = ((page - 1 : Nat) : Int) := by
    rw [Nat.cast_sub hp]; simp
  have h2 : (page - 1) * limit < 2 ^ 53 :=
    lt_of_le_of_lt (Nat.mul_le_mul_right limit (Nat.sub_le page 1)) hpl
  unfold skipCount
  rw [toNumber_of_lt page hp2, toNumber_of_lt limit hl2]
  simp only [jsSub, jsMul]
  rw [h1, jsOfInt_natCast _ (by omega)]
  simp only [jsMul]
  rw [← Nat.cast_mul]
  exact jsOfInt_natCast _ h2

theorem limitCount_of_lt (limit : Nat) (hl2 : limit < 2 ^ 53) :
    limitCount limit = JsNumber.finite limit := by
  unfold limitCount
  rw [toNumber_of_lt limit hl2]
  simp only [jsMul, mul_one]
  exact jsOfInt_natCast _ hl2

end PaginationLemmas

/-- C18 (counterexample). With `page = 3002399751580332` and `limit = 3` the handler
skips `9007199254740992` documents, while `(page - 1) * limit` is
`9007199254740993`; with `page = 9007199254740993` the block has
`currentPage = 9007199254740992`; with `total = 18014398509481984` and `limit = 3`
the block has `totalPages = 6004799503160661`, one less than the ceiling of
`total / limit`. -/
theorem C18_counterexample :
    (1 ≤ 3002399751580332 ∧ 1 ≤ 3) ∧
    skipCount 3002399751580332 3 = JsNumber.finite 9007199254740992 ∧
    ((3002399751580332 : Int) - 1) * 3 = 9007199254740993 ∧
    (paginationOf 9007199254740993 1 0).currentPage = JsNumber.finite 9007199254740992 ∧
    (paginationOf 1 3 18014398509481984).totalPages = JsNumber.finite 6004799503160661 ∧
    ⌈((18014398509481984 : Nat) : ℚ) / ((3 : Nat) : ℚ)⌉₊ = 6004799503160662 := by
  refine ⟨by decide, by decide, by decide, by decide, by decide, ?_⟩
  rw [← ceilDiv_eq_ceil _ _ (by decide)]
  decide

/-- C18 (amended). For all integers `page ≥ 1`, `limit ≥ 1` and `total ≥ 0` with
`page * limit < 2 ^ 53` and `total < 2 ^ 53`: the block has `currentPage = page`,
`totalPages = ⌈total / limit⌉` and the count as `total`; `hasNext` holds exactly
when `currentPage < totalPages` and `hasPrev` exactly when `currentPage > 1`; the
number of documents skipped is `(page - 1) * limit` and the limit passed on is
`limit`; and for any sorted result of `total` documents, `hasNext` holds exactly
when a document lies beyond the current page, the result being the skipped part, the
page and that rest. -/
theorem C18_pagination_block (page limit total : Nat) (hp : 1 ≤ page) (hl : 1 ≤ limit)
    (hpl : page * limit < 2 ^ 53) (ht : total < 2 ^ 53) :
    (paginationOf page limit total).currentPage = JsNumber.finite page ∧
    (paginationOf page limit total).totalPages =
      JsNumber.finite (⌈(total : ℚ) / (limit : ℚ)⌉₊ : Nat) ∧
    (paginationOf page limit total).total = JsNumber.finite total ∧
    ((paginationOf page limit total).hasNext = true ↔
      jsLt (paginationOf page limit total).currentPage
        (paginationOf page limit total).totalPages = true) ∧
    ((paginationOf page limit total).hasNext = true ↔ page < ⌈(total : ℚ) / (limit : ℚ)⌉₊) ∧
    ((paginationOf page limit total).hasPrev = true ↔ 1 < page) ∧
    skipCount page limit = JsNumber.finite (((page : Int) - 1) * (limit : Int)) ∧
    skipCount page limit = JsNumber.finite (((page - 1) * limit : Nat) : Int) ∧
    limitCount limit = JsNumber.finite limit ∧
    (∀ (α : Type) (sorted : List α), sorted.length = total →
      sorted = sorted.take ((page - 1) * limit) ++ pageItems sorted ((page - 1) * limit) limit ++
        sorted.drop ((page - 1) * limit + limit) ∧
      ((paginationOf page limit total).hasNext = true ↔
        sorted.drop ((page - 1) * limit + limit) ≠ [])) := by
  have hl2 : limit < 2 ^ 53 := lt_of_le_of_lt (Nat.le_mul_of_pos_left limit hp) hpl
  have hskip : (page - 1) * limit + limit = page * limit := by
    obtain ⟨k, rfl⟩ : ∃ k, page = k + 1 := ⟨page - 1, by omega⟩
    simp [Nat.succ_mul]
  rw [paginationOf_of_lt page limit total hp hl hpl ht, ← ceilDiv_eq_ceil total limit hl]
  refine ⟨rfl, rfl, rfl, ?_, ?_, ?_, ?_, skipCount_of_lt page limit hp hl hpl,
    limitCount_of_lt limit hl2, ?_⟩
  · simp [jsLt, lt_ceilDiv_iff page total limit hl]
  · simp [lt_ceilDiv_iff page total limit hl]
  · simp
  · rw [skipCount_of_lt page limit hp hl hpl]
    push_cast [Nat.cast_sub hp]
    rfl
  · intro α sorted hlen
    constructor
    · unfold pageItems
      rw [List.append_assoc, ← List.drop_drop, List.take_append_drop, List.take_append_drop]
    · rw [hskip]
      simp [← hlen, List.drop_eq_nil_iff]

/-- C18 (witness): page 2 of 41 documents, 20 to a page, has three pages and a next
page, and skips 20 documents. -/
theorem C18_witness :
    (1 ≤ 2 ∧ 1 ≤ 20 ∧ 2 * 20 < 2 ^ 53 ∧ 41 < 2 ^ 53) ∧
    (paginationOf 2 20 41).totalPages =
      JsNumber.finite (⌈((41 : Nat) : ℚ) / ((20 : Nat) : ℚ)⌉₊ : Nat) ∧
    (paginationOf 2 20 41).totalPages = JsNumber.finite 3 ∧
    (paginationOf 2 20 41).hasNext = true ∧
    skipCount 2 20 = JsNumber.finite 20 :=
  ⟨by decide, (C18_pagination_block 2 20 41 (by decide) (by decide) (by decide) (by decide)).2.1,
    by decide, by decide, by decide⟩

/-! ## C12: the status read -/

/-- C12 (counterexample). Two records that differ in original name, size and media
type get the same answer from the status read: the answer does not carry the
provenance fields. -/
theorem C12_counterexample :
    (runHandler (getTrainStatus {} "a1") ⟨[orphanDoc], []⟩).1 =
      (runHandler (getTrainStatus {} "a1") ⟨[otherProvenanceDoc], []⟩).1 ∧
    (runHandler (getTrainStatus {} "a1") ⟨[orphanDoc], []⟩).1 =
      Except.ok ⟨200, ResBody.status ⟨"a1", "t", Status.uploaded, none, 0, 0⟩⟩ ∧
    orphanDoc.originalName ≠ otherProvenanceDoc.originalName ∧
    orphanDoc.fileSize ≠ otherProvenanceDoc.fileSize ∧
    orphanDoc.mimeType ≠ otherProvenanceDoc.mimeType := by
  refine ⟨rfl, rfl, by decide, by decide, by decide⟩

/-- C12 (amended). For every existing artifact, in every status including `error`,
the status read whose lookup completes answers 200 with exactly `scriptId`,
`title`, `status`, `trainingData`, `createdAt` and `updatedAt` of the record; its
only effect is the lookup, and the store and the disk are as before. With a failing
lookup the store and the disk are as before as well. -/
theorem C12_status_read_projection (env : Env) (w : World) (id : String) (d : Script)
    (hl : w.lookup id = some d) :
    (env.findOk = true →
      runHandler (getTrainStatus env id) w =
        (Except.ok ⟨200, ResBody.status
            { scriptId := d.id, title := d.title, status := d.status,
              trainingData := d.trainingData, createdAt := d.createdAt,
              updatedAt := d.updatedAt }⟩,
          { world := w, log := [Effect.findById id true] })) ∧
    (runHandler (getTrainStatus env id) w).2.world = w := by
  have hl2 : ({ world := w } : HState).world.lookup id = some d := hl
  rw [runHandler, exec_getTrainStatus]
  constructor
  · intro hf
    rw [if_pos hf, hl2]
    rfl
  · by_cases hf : env.findOk = true
    · rw [if_pos hf]
    · rw [if_neg hf]

/-- C12 (witness): the status read of a record in status `error`. -/
theorem C12_witness :
    (⟨[{ orphanDoc with status := Status.error }], []⟩ : World).lookup "a1" =
      some { orphanDoc with status := Status.error } ∧
    (runHandler (getTrainStatus {} "a1")
      ⟨[{ orphanDoc with status := Status.error }], []⟩).1 =
        Except.ok ⟨200, ResBody.status ⟨"a1", "t", Status.error, none, 0, 0⟩⟩ :=
  ⟨rfl,
    congrArg Prod.fst
      ((C12_status_read_projection {} ⟨[{ orphanDoc with status := Status.error }], []⟩ "a1"
        { orphanDoc with status := Status.error } rfl).1 rfl)⟩

/-! ## C14, C15: the training request and the stored content -/

section SubmissionLemmas

theorem trainPosts_append (l1 l2 : List Effect) :
    trainPosts (l1 ++ l2) = trainPosts l1 ++ trainPosts l2 := by
  induction l1 with
  | nil => rfl
  | cons e rest ih => cases e <;> simp [trainPosts, ih]

theorem lookup_afterCleanup (env : Env) (path : String) (s : HState) (id : String) :
    (afterCleanup env path s).world.lookup id = s.world.lookup id := by
  simp only [World.lookup, afterCleanup_db]

theorem uploadRoute_saved (parseInt : String → JsNumber) (env : Env) (f : IncomingFile)
    (body : UploadBody) (w : World) (hacc : accepts env f = true)
    (hsave : env.saveOk = true ∧ w.lookup env.newId = none) :
    trainPosts (uploadRoute parseInt env (some f) body w).1.log =
      [trainRequestOf parseInt env (storedFile env f) body] ∧
    ((uploadRoute parseInt env (some f) body w).1.world.lookup env.newId).map
        (fun d => (d.id, d.content, d.metadata)) =
      some ((trainRequestOf parseInt env (storedFile env f) body).scriptId,
        (trainRequestOf parseInt env (storedFile env f) body).content,
        (trainRequestOf parseInt env (storedFile env f) body).metadata) := by
  have hsave2 : env.saveOk = true ∧ (afterStore env f w).world.lookup env.newId = none := hsave
  have hins : ((afterStore env f w).world.insert
        (insertedDoc parseInt env (storedFile env f) body)).lookup env.newId =
      some (insertedDoc parseInt env (storedFile env f) body) :=
    lookup_insert (afterStore env f w).world (insertedDoc parseInt env (storedFile env f) body)
      hsave2.2
  have hset : ∀ st, (((afterStore env f w).world.insert
        (insertedDoc parseInt env (storedFile env f) body)).setStatus env.newId st
          env.now).lookup env.newId =
      some { insertedDoc parseInt env (storedFile env f) body with
        status := st, updatedAt := env.now } := fun st =>
    lookup_insert_setStatus (afterStore env f w).world
      (insertedDoc parseInt env (storedFile env f) body) st env.now hsave2.2
  rw [uploadRoute_accepts parseInt env f body w hacc]
  cases hpost : env.postOk <;> cases hproc : env.updateOk Status.processing <;>
    cases herr : env.updateOk Status.error
  · rw [postTrain_post_and_error_failed parseInt env _ body _ hsave2 hpost herr]
    refine ⟨?_, ?_⟩
    · simp [afterCleanup_log, trainPosts_append, afterStore, logToSave, trainPosts]
    · simp only [lookup_afterCleanup, hins, hset, Option.map_some']
      rfl
  · rw [postTrain_post_failed parseInt env _ body _ hsave2 hpost herr]
    refine ⟨?_, ?_⟩
    · simp [afterCleanup_log, trainPosts_append, afterStore, logToSave, trainPosts]
    · simp only [lookup_afterCleanup, hins, hset, Option.map_some']
      rfl
  · rw [postTrain_post_and_error_failed parseInt env _ body _ hsave2 hpost herr]
    refine ⟨?_, ?_⟩
    · simp [afterCleanup_log, trainPosts_append, afterStore, logToSave, trainPosts]
    · simp only [lookup_afterCleanup, hins, hset, Option.map_some']
      rfl
  · rw [postTrain_post_failed parseInt env _ body _ hsave2 hpost herr]
    refine ⟨?_, ?_⟩
    · simp [afterCleanup_log, trainPosts_append, afterStore, logToSave, trainPosts]
    · simp only [lookup_afterCleanup, hins, hset, Option.map_some']
      rfl
  · rw [postTrain_both_writes_failed parseInt env _ body _ hsave2 hpost hproc herr]
    refine ⟨?_, ?_⟩
    · simp [afterCleanup_log, trainPosts_append, afterStore, logToSave, trainPosts]
    · simp only [lookup_afterCleanup, hins, hset, Option.map_some']
      rfl
  · rw [postTrain_processing_failed parseInt env _ body _ hsave2 hpost hproc herr]
    refine ⟨?_, ?_⟩
    · simp [afterCleanup_log, trainPosts_append, afterStore, logToSave, trainPosts]
    · simp only [lookup_afterCleanup, hins, hset, Option.map_some']
      rfl
  · rw [postTrain_trained parseInt env _ body _ hsave2 hpost hproc]
    refine ⟨?_, ?_⟩
    · simp [afterCleanup_log, trainPosts_append, afterStore, logToSave, trainPosts]
    · simp only [lookup_afterCleanup, hins, hset, Option.map_some']
      rfl
  · rw [postTrain_trained parseInt env _ body _ hsave2 hpost hproc]
    refine ⟨?_, ?_⟩
    · simp [afterCleanup_log, trainPosts_append, afterStore, logToSave, trainPosts]
    · simp only [lookup_afterCleanup, hins, hset, Option.map_some']
      rfl

theorem uploadRoute_not_saved (parseInt : String → JsNumber) (env : Env) (f : IncomingFile)
    (body : UploadBody) (w : World) (hacc : accepts env f = true)
    (hsave : ¬ (env.saveOk = true ∧ w.lookup env.newId = none)) :
    trainPosts (uploadRoute parseInt env (some f) body w).1.log = [] := by
  have hsave2 : ¬ (env.saveOk = true ∧ (afterStore env f w).world.lookup env.newId = none) :=
    hsave
  rw [uploadRoute_accepts parseInt env f body w hacc,
    postTrain_save_failed parseInt env (storedFile env f) body _ hsave2]
  simp [afterCleanup_log, trainPosts_append, afterStore, logToSave, trainPosts]

end SubmissionLemmas

/-! ## C8: the fields of the new record -/

section NewRecordLemmas

theorem uploadRoute_saved_doc (parseInt : String → JsNumber) (env : Env) (f : IncomingFile)
    (body : UploadBody) (w : World) (hacc : accepts env f = true)
    (hsave : env.saveOk = true ∧ w.lookup env.newId = none) :
    ∃ st t, (uploadRoute parseInt env (some f) body w).1.world.lookup env.newId =
      some { insertedDoc parseInt env (storedFile env f) body with
        status := st, updatedAt := t } := by
  have hsave2 : env.saveOk = true ∧ (afterStore env f w).world.lookup env.newId = none := hsave
  have hins : ((afterStore env f w).world.insert
        (insertedDoc parseInt env (storedFile env f) body)).lookup env.newId =
      some (insertedDoc parseInt env (storedFile env f) body) :=
    lookup_insert (afterStore env f w).world (insertedDoc parseInt env (storedFile env f) body)
      hsave2.2
  have hset : ∀ st, (((afterStore env f w).world.insert
        (insertedDoc parseInt env (storedFile env f) body)).setStatus env.newId st
          env.now).lookup env.newId =
      some { insertedDoc parseInt env (storedFile env f) body with
        status := st, updatedAt := env.now } := fun st =>
    lookup_insert_setStatus (afterStore env f w).world
      (insertedDoc parseInt env (storedFile env f) body) st env.now hsave2.2
  rw [uploadRoute_accepts parseInt env f body w hacc]
  cases hpost : env.postOk <;> cases hproc : env.updateOk Status.processing <;>
    cases herr : env.updateOk Status.error
  · rw [postTrain_post_and_error_failed parseInt env _ body _ hsave2 hpost herr]
    exact ⟨(insertedDoc parseInt env (storedFile env f) body).status,
      (insertedDoc parseInt env (storedFile env f) body).updatedAt, by
        simp only [lookup_afterCleanup]
        exact hins⟩
  · rw [postTrain_post_failed parseInt env _ body _ hsave2 hpost herr]
    exact ⟨_, _, hset _⟩
  · rw [postTrain_post_and_error_failed parseInt env _ body _ hsave2 hpost herr]
    exact ⟨(insertedDoc parseInt env (storedFile env f) body).status,
      (insertedDoc parseInt env (storedFile env f) body).updatedAt, by
        simp only [lookup_afterCleanup]
        exact hins⟩
  · rw [postTrain_post_failed parseInt env _ body _ hsave2 hpost herr]
    exact ⟨_, _, hset _⟩
  · rw [postTrain_both_writes_failed parseInt env _ body _ hsave2 hpost hproc herr]
    exact ⟨(insertedDoc parseInt env (storedFile env f) body).status,
      (insertedDoc parseInt env (storedFile env f) body).updatedAt, by
        simp only [lookup_afterCleanup]
        exact hins⟩
  · rw [postTrain_processing_failed parseInt env _ body _ hsave2 hpost hproc herr]
    exact ⟨_, _, hset _⟩
  · rw [postTrain_trained parseInt env _ body _ hsave2 hpost hproc]
    exact ⟨_, _, hset _⟩
  · rw [postTrain_trained parseInt env _ body _ hsave2 hpost hproc]
    exact ⟨_, _, hset _⟩

theorem orElseStr_eq (x : Option String) (dflt : String) :
    orElseStr x dflt = if truthy x then x.getD "" else dflt := by
  cases x with
  | none => simp [orElseStr, truthy]
  | some t => by_cases ht : t = "" <;> simp [orElseStr, truthy, ht]

end NewRecordLemmas

/-- C8. An accepted upload whose insert succeeds leaves in the store, under the new
id and whatever happens afterwards, a record with: as title the supplied title when
one is supplied (present and not empty), otherwise `path.parse(originalname).name`,
which for an accepted name `stem.ext` without a directory part is `stem` (the name
without its last dot and what follows it); as genre and author the supplied value,
otherwise `Unknown`; as year `parseInt` of the supplied year, otherwise `null`. For
`script.txt` without metadata the stored record has title `script` and genre
`Unknown`. -/
theorem C8_new_record_fields (parseInt : String → JsNumber) (env : Env) (f : IncomingFile)
    (body : UploadBody) (w : World) (hacc : accepts env f = true)
    (hsave : env.saveOk = true ∧ w.lookup env.newId = none) :
    ((uploadRoute parseInt env (some f) body w).1.world.lookup env.newId).map
        (fun d => (d.title, d.metadata.genre, d.metadata.author, d.metadata.year)) =
      some ((if truthy body.title then body.title.getD "" else parseName f.originalname),
        (if truthy body.genre then body.genre.getD "" else "Unknown"),
        (if truthy body.author then body.author.getD "" else "Unknown"),
        (if truthy body.year then some (parseInt (body.year.getD "")) else none)) ∧
    (∀ stem ext : List Char, f.originalname.data = stem ++ '.' :: ext →
      '/' ∉ stem → '/' ∉ ext → '.' ∉ ext → parseName f.originalname = String.mk stem) ∧
    ('/' ∉ f.originalname.data →
      parseName f.originalname ++ extname f.originalname = f.originalname) ∧
    ((uploadRoute parseInt {} (some exampleUpload) {} emptyWorld).1.world.lookup "id0").map
      (fun d => (d.title, d.metadata.genre, d.metadata.author, d.metadata.year)) =
        some ("script", "Unknown", "Unknown", none) := by
  have hfilter : fileFilter f.originalname = true := by
    simp only [accepts, Bool.and_eq_true] at hacc
    exact hacc.1.1.2
  refine ⟨?_, ?_, parseName_append_extname f.originalname, ?_⟩
  · obtain ⟨st, t, hdoc⟩ := uploadRoute_saved_doc parseInt env f body w hacc hsave
    rw [hdoc]
    simp only [Option.map_some', insertedDoc, newScript, storedFile, orElseStr_eq]
  · intro stem ext hn h1 h2 h3
    obtain ⟨hs, he⟩ := (fileFilter_stem_ext f.originalname stem ext hn h1 h2 h3).mp hfilter
    have he2 : ext ≠ [] := by
      intro h0
      rw [h0] at he
      exact absurd he (by decide)
    simp only [parseName, hn, parseNameChars_stem_ext stem ext h1 h2 h3 hs he2]
  · have hlook : (emptyWorld.lookup ({} : Env).newId = none) := rfl
    rw [uploadRoute_accepts parseInt {} exampleUpload {} emptyWorld (by decide),
      postTrain_trained parseInt {} (storedFile {} exampleUpload) {} _ ⟨rfl, hlook⟩ rfl rfl]
    rfl

/-- C8 (witness): `script.txt` uploaded with a title, a genre, a year and an author,
the training service refusing: the stored record carries the four supplied values;
and the name of `script.txt` is `script`. -/
theorem C8_witness :
    (accepts { postOk := false } exampleUpload = true ∧
      (({ postOk := false } : Env).saveOk = true ∧
        emptyWorld.lookup ({ postOk := false } : Env).newId = none)) ∧
    ((uploadRoute yearParseInt { postOk := false } (some exampleUpload) fullMetadata
        emptyWorld).1.world.lookup "id0").map
        (fun d => (d.title, d.metadata.genre, d.metadata.author, d.metadata.year)) =
      some ("Heat", "Crime", "Michael Mann", some (JsNumber.finite 1995)) ∧
    parseName exampleUpload.originalname = "script" :=
  ⟨⟨by decide, rfl, rfl⟩,
    (C8_new_record_fields yearParseInt { postOk := false } exampleUpload fullMetadata emptyWorld
      (by decide) ⟨rfl, rfl⟩).1,
    (C8_new_record_fields yearParseInt { postOk := false } exampleUpload fullMetadata emptyWorld
      (by decide) ⟨rfl, rfl⟩).2.1 "script".data "txt".data rfl (by decide) (by decide)
      (by decide)⟩

/-- C14. An upload that is accepted and whose record is inserted sends exactly one
training request, whatever happens afterwards; its body is `scriptId`, `content`
and `metadata`, equal to the id, the content and the metadata of the record in the
store. An upload whose insert fails, an upload multer refuses and a request
without a file send none. -/
theorem C14_one_training_submission (parseInt : String → JsNumber) (env : Env)
    (f : IncomingFile) (body : UploadBody) (w : World) :
    (accepts env f = true → env.saveOk = true ∧ w.lookup env.newId = none →
      trainPosts (uploadRoute parseInt env (some f) body w).1.log =
        [{ scriptId := env.newId, content := readContent env (storedFile env f),
           metadata := (insertedDoc parseInt env (storedFile env f) body).metadata }] ∧
      ((uploadRoute parseInt env (some f) body w).1.world.lookup env.newId).map
          (fun d => (d.id, d.content, d.metadata)) =
        some (env.newId, readContent env (storedFile env f),
          (insertedDoc parseInt env (storedFile env f) body).metadata)) ∧
    (accepts env f = true → ¬ (env.saveOk = true ∧ w.lookup env.newId = none) →
      trainPosts (uploadRoute parseInt env (some f) body w).1.log = []) ∧
    (accepts env f = false →
      trainPosts (uploadRoute parseInt env (some f) body w).1.log = []) ∧
    trainPosts (uploadRoute parseInt env none body w).1.log = [] := by
  refine ⟨fun hacc hsave => uploadRoute_saved parseInt env f body w hacc hsave,
    fun hacc hsave => uploadRoute_not_saved parseInt env f body w hacc hsave, ?_, ?_⟩
  · intro hrej
    rw [uploadRoute_rejected parseInt env f body w hrej]
    rfl
  · rw [uploadRoute_no_file]
    rfl

/-- C14 (witness): the example upload with a refusing training service sends its one
request and does not retry. -/
theorem C14_witness :
    accepts { postOk := false } exampleUpload = true ∧
    trainPosts runPostFail.1.log = [⟨"id0", "", ⟨"Unknown", none, "Unknown"⟩⟩] :=
  ⟨by decide,
    ((C14_one_training_submission exampleParseInt { postOk := false } exampleUpload {}
      emptyWorld).1 (by decide) ⟨rfl, rfl⟩).1⟩

/-- C15 (code evaluated at the failing input). A PDF upload is accepted and its read
does not throw: the stored content is the decoded text of the bytes, not the
placeholder for `application/pdf`, and the training request carries that text. The
placeholder is stored only when the read throws, for a plain-text upload as well. -/
theorem C15_binary_upload_keeps_decoded_text :
    accepts { readFile := some pdfText } pdfUpload = true ∧
    (runPdfUpload.1.world.lookup "id0").map (fun d => (d.mimeType, d.content)) =
      some ("application/pdf", pdfText) ∧
    pdfText ≠ binaryPlaceholder "application/pdf" ∧
    binaryPlaceholder "application/pdf" = "[Binary file content - application/pdf]" ∧
    (trainPosts runPdfUpload.1.log).map (fun r => r.content) = [pdfText] ∧
    ((uploadRoute exampleParseInt { readFile := none } (some exampleUpload) {}
        emptyWorld).1.world.lookup "id0").map (fun d => (d.mimeType, d.content)) =
      some ("text/plain", "[Binary file content - text/plain]") := by
  decide

/-! ## C11: the metadata update -/

section UpdateLemmas

theorem exec_saveExisting (env : Env) (s : HState) (doc : Script) :
    exec (saveExisting env doc) s =
      if env.saveOk = true then
        (Except.ok { doc with updatedAt := env.now },
          { world := s.world.replace { doc with updatedAt := env.now },
            log := s.log ++ [Effect.saveExisting doc.id true] })
      else (Except.error (), { s with log := s.log ++ [Effect.saveExisting doc.id false] }) := by
  by_cases h : env.saveOk = true <;>
  simp [saveExisting, h, exec_pure, exec_throw, exec_bind, exec_map, exec_emit, exec_get,
    exec_set]

theorem exec_putScript_found (parseInt : String → JsNumber) (env : Env) (s : HState)
    (id : String) (body : UploadBody) (d : Script) (hf : env.findOk = true)
    (hl : s.world.lookup id = some d) :
    exec (putScript parseInt env id body) s =
      if env.saveOk = true then
        (Except.ok ⟨200, ResBody.updated "Script updated successfully"
            { applyUpdate parseInt body d with updatedAt := env.now }⟩,
          { world := s.world.replace { applyUpdate parseInt body d with updatedAt := env.now },
            log := s.log ++ [Effect.findById id true,
              Effect.saveExisting (applyUpdate parseInt body d).id true] })
      else
        (Except.ok internalError,
          { s with log := s.log ++ [Effect.findById id true,
              Effect.saveExisting (applyUpdate parseInt body d).id false] }) := by
  by_cases hs : env.saveOk = true <;>
  simp [putScript, exec_findById, exec_saveExisting, hf, hl, hs, exec_pure, exec_bind,
    exec_map, exec_tryCatch, internalError]

theorem exec_putScript_lookup_failed (parseInt : String → JsNumber) (env : Env) (s : HState)
    (id : String) (body : UploadBody) (hf : env.findOk = false) :
    exec (putScript parseInt env id body) s =
      (Except.ok internalError, { s with log := s.log ++ [Effect.findById id false] }) := by
  simp [putScript, exec_findById, hf, exec_pure, exec_bind, exec_map, exec_tryCatch,
    internalError]

theorem applyUpdate_frame (parseInt : String → JsNumber) (body : UploadBody) (d : Script) :
    (applyUpdate parseInt body d).id = d.id ∧
    (applyUpdate parseInt body d).status = d.status ∧
    (applyUpdate parseInt body d).filePath = d.filePath ∧
    (applyUpdate parseInt body d).filename = d.filename ∧
    (applyUpdate parseInt body d).originalName = d.originalName ∧
    (applyUpdate parseInt body d).fileSize = d.fileSize ∧
    (applyUpdate parseInt body d).mimeType = d.mimeType ∧
    (applyUpdate parseInt body d).content = d.content ∧
    (applyUpdate parseInt body d).trainingData = d.trainingData ∧
    (applyUpdate parseInt body d).createdAt = d.createdAt := by
  obtain ⟨t, g, y, a⟩ := body
  cases t <;> cases g <;> cases y <;> cases a <;> simp [applyUpdate]

theorem applyUpdate_fields (parseInt : String → JsNumber) (body : UploadBody) (d : Script) :
    (applyUpdate parseInt body d).title = body.title.getD d.title ∧
    (applyUpdate parseInt body d).metadata.genre = body.genre.getD d.metadata.genre ∧
    (applyUpdate parseInt body d).metadata.year =
      (match body.year with
        | some year => some (parseInt year)
        | none => d.metadata.year) ∧
    (applyUpdate parseInt body d).metadata.author = body.author.getD d.metadata.author := by
  obtain ⟨t, g, y, a⟩ := body
  cases t <;> cases g <;> cases y <;> cases a <;> simp [applyUpdate]

theorem lookup_id (w : World) (id : String) (d : Script) (h : w.lookup id = some d) :
    d.id = id := by
  have := List.find?_some h
  simpa using this

theorem lookup_replace (w : World) (doc : Script) :
    (w.replace doc).lookup doc.id = (w.lookup doc.id).map fun _ => doc := by
  simp only [World.lookup, World.replace]
  induction w.db with
  | nil => rfl
  | cons d rest ih =>
    by_cases hd : d.id = doc.id
    · simp [List.find?, hd]
    · simp [List.find?, hd, ih]

theorem lookup_replace_ne (w : World) (doc : Script) (id : String) (h : id ≠ doc.id) :
    (w.replace doc).lookup id = w.lookup id := by
  simp only [World.lookup, World.replace]
  induction w.db with
  | nil => rfl
  | cons d rest ih =>
    by_cases hd : d.id = doc.id
    · have hne : ¬ d.id = id := fun e => h (e ▸ hd)
      have hne2 : ¬ doc.id = id := fun e => h e.symm
      simp [List.find?, hd, hne2, ih]
    · by_cases hi : d.id = id
      · subst hi
        simp only [List.map, if_neg hd, List.find?, decide_True]
      · simp only [List.map, if_neg hd, List.find?, hi, decide_False, ih]

end UpdateLemmas

/-- C11. For every existing artifact and every body of the update request, after
`PUT /:id` the record of that id still exists with `status`, `filePath`,
`filename`, `originalName`, `fileSize`, `mimeType` and `content` as before; each
of `title`, `metadata.genre`, `metadata.year` and `metadata.author` that the body
does not supply keeps its value; when the lookup and the save complete, each
supplied one takes the supplied value (`parseInt` of it for the year). The records
of other ids and the disk are untouched. -/
theorem C11_update_changes_only_supplied_fields (parseInt : String → JsNumber) (env : Env)
    (w : World) (id : String) (body : UploadBody) (d : Script) (hl : w.lookup id = some d) :
    (∃ d2, (runHandler (putScript parseInt env id body) w).2.world.lookup id = some d2 ∧
      d2.status = d.status ∧ d2.filePath = d.filePath ∧ d2.filename = d.filename ∧
      d2.originalName = d.originalName ∧ d2.fileSize = d.fileSize ∧
      d2.mimeType = d.mimeType ∧ d2.content = d.content ∧
      (body.title = none → d2.title = d.title) ∧
      (body.genre = none → d2.metadata.genre = d.metadata.genre) ∧
      (body.year = none → d2.metadata.year = d.metadata.year) ∧
      (body.author = none → d2.metadata.author = d.metadata.author) ∧
      (env.findOk = true → env.saveOk = true →
        (∀ t, body.title = some t → d2.title = t) ∧
        (∀ g, body.genre = some g → d2.metadata.genre = g) ∧
        (∀ y, body.year = some y → d2.metadata.year = some (parseInt y)) ∧
        (∀ a, body.author = some a → d2.metadata.author = a))) ∧
    (∀ other, other ≠ id →
      (runHandler (putScript parseInt env id body) w).2.world.lookup other = w.lookup other) ∧
    (runHandler (putScript parseInt env id body) w).2.world.disk = w.disk := by
  have hl2 : ({ world := w } : HState).world.lookup id = some d := hl
  have hid : d.id = id := lookup_id w id d hl
  obtain ⟨f1, f2, f3, f4, f5, f6, f7, f8, -, -⟩ := applyUpdate_frame parseInt body d
  obtain ⟨g1, g2, g3, g4⟩ := applyUpdate_fields parseInt body d
  have keep : (∃ d2, w.lookup id = some d2 ∧
      d2.status = d.status ∧ d2.filePath = d.filePath ∧ d2.filename = d.filename ∧
      d2.originalName = d.originalName ∧ d2.fileSize = d.fileSize ∧
      d2.mimeType = d.mimeType ∧ d2.content = d.content ∧
      (body.title = none → d2.title = d.title) ∧
      (body.genre = none → d2.metadata.genre = d.metadata.genre) ∧
      (body.year = none → d2.metadata.year = d.metadata.year) ∧
      (body.author = none → d2.metadata.author = d.metadata.author)) :=
    ⟨d, hl, rfl, rfl, rfl, rfl, rfl, rfl, rfl, fun _ => rfl, fun _ => rfl, fun _ => rfl,
      fun _ => rfl⟩
  rw [runHandler]
  cases hf : env.findOk
  · rw [exec_putScript_lookup_failed parseInt env _ id body hf]
    obtain ⟨d2, h0, h1, h2, h3, h4, h5, h6, h7, h8, h9, h10, h11⟩ := keep
    exact ⟨⟨d2, h0, h1, h2, h3, h4, h5, h6, h7, h8, h9, h10, h11,
      fun h => absurd h Bool.false_ne_true⟩, fun _ _ => rfl, rfl⟩
  · rw [exec_putScript_found parseInt env _ id body d hf hl2]
    cases hs : env.saveOk
    · rw [if_neg Bool.false_ne_true]
      obtain ⟨d2, h0, h1, h2, h3, h4, h5, h6, h7, h8, h9, h10, h11⟩ := keep
      exact ⟨⟨d2, h0, h1, h2, h3, h4, h5, h6, h7, h8, h9, h10, h11,
        fun _ h => absurd h Bool.false_ne_true⟩, fun _ _ => rfl, rfl⟩
    · rw [if_pos rfl]
      have hnew : ({ applyUpdate parseInt body d with updatedAt := env.now } : Script).id = id :=
        f1.trans hid
      have hlook : (w.replace { applyUpdate parseInt body d with updatedAt := env.now }).lookup id =
          some { applyUpdate parseInt body d with updatedAt := env.now } := by
        have := lookup_replace w { applyUpdate parseInt body d with updatedAt := env.now }
        rw [hnew, hl] at this
        exact this
      refine ⟨⟨_, hlook, f2, f3, f4, f5, f6, f7, f8, ?_, ?_, ?_, ?_, fun _ _ => ⟨?_, ?_, ?_, ?_⟩⟩,
        ?_, rfl⟩
      · intro h
        show (applyUpdate parseInt body d).title = d.title
        rw [g1, h]
        rfl
      · intro h
        show (applyUpdate parseInt body d).metadata.genre = d.metadata.genre
        rw [g2, h]
        rfl
      · intro h
        show (applyUpdate parseInt body d).metadata.year = d.metadata.year
        rw [g3, h]
      · intro h
        show (applyUpdate parseInt body d).metadata.author = d.metadata.author
        rw [g4, h]
        rfl
      · intro t h
        show (applyUpdate parseInt body d).title = t
        rw [g1, h]
        rfl
      · intro g h
        show (applyUpdate parseInt body d).metadata.genre = g
        rw [g2, h]
        rfl
      · intro y h
        show (applyUpdate parseInt body d).metadata.year = some (parseInt y)
        rw [g3, h]
      · intro a h
        show (applyUpdate parseInt body d).metadata.author = a
        rw [g4, h]
        rfl
      · intro other hne
        exact lookup_replace_ne w _ other (fun e => hne (e.trans hnew))

/-- C11 (witness): an update of `orphanDoc` that supplies a title and a year. -/
theorem C11_witness :
    orphanWorld.lookup "a1" = some orphanDoc ∧
    (runHandler (putScript exampleParseInt {} "a1" titleYearUpdate) orphanWorld).2.world.disk =
      orphanWorld.disk :=
  ⟨rfl,
    (C11_update_changes_only_supplied_fields exampleParseInt {} orphanWorld "a1"
      titleYearUpdate orphanDoc rfl).2.2⟩

/-! ## C17: the history sent with a chat request -/

section ChatExecLemmas
variable {α β : Type}

theorem chatExec_pure (a : α) (s : ChatState) :
    chatExec (pure a : ChatHandler α) s = (Except.ok a, s) := rfl

theorem chatExec_throw (s : ChatState) :
    chatExec (throw () : ChatHandler α) s = (Except.error (), s) := rfl

theorem chatExec_bind (x : ChatHandler α) (f : α → ChatHandler β) (s : ChatState) :
    chatExec (x >>= f) s =
      match chatExec x s with
      | (Except.ok a, s1) => chatExec (f a) s1
      | (Except.error e, s1) => (Except.error e, s1) := by
  simp only [chatExec, ExceptT.run, bind, ExceptT.bind, ExceptT.mk, StateT.bind, StateT.run,
    ExceptT.bindCont]
  rcases h : x s with ⟨r, s1⟩
  cases r <;> simp [h, pure, StateT.pure]

theorem chatExec_map (f : α → β) (x : ChatHandler α) (s : ChatState) :
    chatExec (f <$> x) s =
      match chatExec x s with
      | (Except.ok a, s1) => (Except.ok (f a), s1)
      | (Except.error e, s1) => (Except.error e, s1) := by
  rw [← bind_pure_comp, chatExec_bind]
  rcases h : chatExec x s with ⟨r, s1⟩
  cases r <;> rfl

theorem chatExec_tryCatch (x : ChatHandler α) (f : Unit → ChatHandler α) (s : ChatState) :
    chatExec (tryCatch x f) s =
      match chatExec x s with
      | (Except.ok a, s1) => (Except.ok a, s1)
      | (Except.error e, s1) => chatExec (f e) s1 := by
  simp only [chatExec, ExceptT.run, tryCatch, tryCatchThe, MonadExceptOf.tryCatch,
    ExceptT.tryCatch, ExceptT.mk, bind, StateT.bind, StateT.run]
  rcases h : x s with ⟨r, s1⟩
  cases r <;> simp [h, pure, StateT.pure]

theorem chatExec_get (s : ChatState) :
    chatExec (get : ChatHandler ChatState) s = (Except.ok s, s) := rfl

theorem chatExec_set (t s : ChatState) :
    chatExec (set t : ChatHandler PUnit) s = (Except.ok PUnit.unit, t) := rfl

theorem chatExec_modify (f : ChatState → ChatState) (s : ChatState) :
    chatExec (modify f : ChatHandler PUnit) s = (Except.ok PUnit.unit, f s) := rfl

theorem chatExec_emit (e : ChatEffect) (s : ChatState) :
    chatExec (chatEmit e) s = (Except.ok (), { s with log := s.log ++ [e] }) := rfl

end ChatExecLemmas

theorem generatePosts_append (l1 l2 : List ChatEffect) :
    generatePosts (l1 ++ l2) = generatePosts l1 ++ generatePosts l2 := by
  induction l1 with
  | nil => rfl
  | cons e rest ih => cases e <;> simp [generatePosts, ih]

section ChatPrimitives
variable (env : ChatEnv) (s : ChatState)

theorem chatExec_currentConversation :
    chatExec currentConversation s =
      match s.conversation with
      | some conv => (Except.ok conv, s)
      | none => (Except.error (), s) := by
  cases h : s.conversation <;>
  simp [currentConversation, h, chatExec_pure, chatExec_throw, chatExec_bind, chatExec_get]

theorem chatExec_saveConversation (ok : Bool) :
    chatExec (saveConversation ok) s =
      match s.conversation with
      | none => (Except.error (), s)
      | some conv =>
        if ok = true then
          (Except.ok (),
            { s with conversations := upsertConversation s.conversations conv,
                     log := s.log ++ [ChatEffect.saveConversation conv.id true] })
        else
          (Except.error (),
            { s with log := s.log ++ [ChatEffect.saveConversation conv.id false] }) := by
  cases h : s.conversation <;> cases ok <;>
  simp [saveConversation, h, chatExec_pure, chatExec_throw, chatExec_bind, chatExec_map,
    chatExec_get, chatExec_set, chatExec_emit]

theorem chatExec_addMessage (ok : Bool) (type content : String) :
    chatExec (addMessage env ok type content) s =
      match s.conversation with
      | none => (Except.error (), s)
      | some conv =>
        if ok = true then
          (Except.ok (),
            { conversations := upsertConversation s.conversations
                { conv with messages := conv.messages ++ [⟨type, content, env.now⟩] },
              conversation :=
                some { conv with messages := conv.messages ++ [⟨type, content, env.now⟩] },
              log := s.log ++ [ChatEffect.saveConversation conv.id true] })
        else
          (Except.error (),
            { conversations := s.conversations,
              conversation :=
                some { conv with messages := conv.messages ++ [⟨type, content, env.now⟩] },
              log := s.log ++ [ChatEffect.saveConversation conv.id false] }) := by
  cases h : s.conversation <;> cases ok <;>
  simp [addMessage, h, chatExec_throw, chatExec_bind, chatExec_get, chatExec_set,
    chatExec_saveConversation]

theorem chatExec_axiosPostGenerate (req : GenerateRequest) :
    chatExec (axiosPostGenerate env req) s =
      match env.generate with
      | some content =>
        (Except.ok content, { s with log := s.log ++ [ChatEffect.generatePost req true] })
      | none =>
        (Except.error (), { s with log := s.log ++ [ChatEffect.generatePost req false] }) := by
  cases hg : env.generate <;>
  simp [axiosPostGenerate, hg, chatExec_pure, chatExec_throw, chatExec_bind, chatExec_map,
    chatExec_emit]

theorem chatExec_findConversation (id : String) :
    chatExec (findConversation env id) s =
      if env.findOk = true then
        (Except.ok (s.conversations.find? fun c => c.id = id),
          { s with log := s.log ++ [ChatEffect.findConversation id true] })
      else
        (Except.error (), { s with log := s.log ++ [ChatEffect.findConversation id false] }) := by
  cases h : env.findOk <;>
  simp [findConversation, h, chatExec_pure, chatExec_throw, chatExec_bind, chatExec_map,
    chatExec_get, chatExec_emit]

end ChatPrimitives

theorem chatGenerate_posts (env : ChatEnv) (message outputType : String) (s : ChatState)
    (conv : Conversation) (h : s.conversation = some conv) :
    generatePosts (chatExec (chatGenerate env message outputType) s).2.log =
      generatePosts s.log ++ [⟨message, outputType, jsSliceLast conv.messages 10⟩] := by
  cases hg : env.generate <;> cases h1 : env.addAiOk <;> cases h2 : env.saveOk <;>
    cases h3 : env.addErrorOk <;> cases h4 : env.saveErrorOk <;>
  simp [chatGenerate, chatExec_currentConversation, chatExec_axiosPostGenerate,
    chatExec_addMessage, chatExec_saveConversation, h, hg, h1, h2, h3, h4, chatExec_pure,
    chatExec_bind, chatExec_map, chatExec_tryCatch, generatePosts_append, generatePosts]


theorem jsSliceLast_snoc {α : Type} (prior : List α) (x : α) :
    (jsSliceLast (prior ++ [x]) 10).length = min 10 (prior.length + 1) ∧
    jsSliceLast (prior ++ [x]) 10 <:+ prior ++ [x] ∧
    (jsSliceLast (prior ++ [x]) 10).getLast? = some x := by
  unfold jsSliceLast
  refine ⟨?_, List.drop_suffix _ _, ?_⟩
  · simp only [List.length_drop, List.length_append, List.length_singleton]
    omega
  · have hk : (prior ++ [x]).length - 10 ≤ prior.length := by
      simp only [List.length_append, List.length_singleton]
      omega
    rw [List.drop_append_of_le_length hk]
    simp

theorem chatExec_log_of_outer {α : Type} (x : ChatHandler α) (a : α) (s : ChatState) :
    (chatExec (tryCatch x fun _ => pure a) s).2.log = (chatExec x s).2.log := by
  rw [chatExec_tryCatch]
  rcases chatExec x s with ⟨r, s1⟩
  cases r <;> rfl

section ChatPaths
variable (env : ChatEnv) (body : ChatBody) (convs : List Conversation)

theorem postChat_no_message (h : truthy body.message = false) :
    chatExec (postChat env body) { conversations := convs } =
      (Except.ok ⟨400, ChatResBody.error "Message is required"⟩, { conversations := convs }) := by
  simp [postChat, h, chatExec_pure, chatExec_tryCatch]

theorem postChat_posts_new (hm : truthy body.message = true)
    (hid : truthy body.conversationId = false) (hu : env.addUserOk = true) :
    generatePosts (chatExec (postChat env body) { conversations := convs }).2.log =
      [⟨body.message.getD "", body.outputType.getD "script",
        jsSliceLast [⟨"user", body.message.getD "", env.now⟩] 10⟩] := by
  unfold postChat
  rw [chatExec_log_of_outer]
  simp only [hm, hid, Bool.not_true, Bool.false_eq_true, if_false, chatExec_bind,
    chatExec_modify, chatExec_addMessage, hu, if_true, List.nil_append, pure_bind]
  rw [chatGenerate_posts env _ _ _ _ rfl]
  rfl


theorem postChat_posts_found (id : String) (conv : Conversation)
    (hm : truthy body.message = true) (hid : truthy body.conversationId = true)
    (hidv : body.conversationId.getD "" = id) (hf : env.findOk = true)
    (hfind : (convs.find? fun c => c.id = id) = some conv) (hu : env.addUserOk = true) :
    generatePosts (chatExec (postChat env body) { conversations := convs }).2.log =
      [⟨body.message.getD "", body.outputType.getD "script",
        jsSliceLast (conv.messages ++ [⟨"user", body.message.getD "", env.now⟩]) 10⟩] := by
  unfold postChat
  rw [chatExec_log_of_outer]
  simp only [hm, hid, hidv, Bool.not_true, Bool.false_eq_true, if_false, if_true, chatExec_bind,
    chatExec_findConversation, hf, hfind, chatExec_modify, chatExec_addMessage, hu, pure_bind]
  rw [chatGenerate_posts env _ _ _ _ rfl]
  rfl

theorem postChat_posts_add_failed (hu : env.addUserOk = false) :
    generatePosts (chatExec (postChat env body) { conversations := convs }).2.log = [] := by
  unfold postChat
  rw [chatExec_log_of_outer]
  cases hm : truthy body.message <;> cases hid : truthy body.conversationId <;>
    cases hf : env.findOk <;>
    cases hfind : (convs.find? fun c => c.id = body.conversationId.getD "") <;>
  simp [hm, hid, hf, hfind, hu, chatExec_bind, chatExec_pure, chatExec_map,
    chatExec_findConversation, chatExec_modify, chatExec_addMessage, generatePosts]

theorem postChat_posts_unresolved (hid : truthy body.conversationId = true)
    (h : env.findOk = false ∨
      (convs.find? fun c => c.id = body.conversationId.getD "") = none) :
    generatePosts (chatExec (postChat env body) { conversations := convs }).2.log = [] := by
  unfold postChat
  rw [chatExec_log_of_outer]
  cases hm : truthy body.message <;> cases hf : env.findOk <;>
    cases hfind : (convs.find? fun c => c.id = body.conversationId.getD "") <;>
  first
  | (exfalso
     rw [hf, hfind] at h
     simp at h
     done)
  | simp [hm, hid, hf, hfind, chatExec_bind, chatExec_pure, chatExec_map,
      chatExec_findConversation, generatePosts]

end ChatPaths

theorem postChat_posts_cases (env : ChatEnv) (body : ChatBody) (convs : List Conversation) :
    generatePosts (chatExec (postChat env body) { conversations := convs }).2.log = [] ∨
    (truthy body.message = true ∧
      ∃ prior : List Message,
        (if truthy body.conversationId = true then
            ∃ conv ∈ convs, conv.id = body.conversationId.getD "" ∧ prior = conv.messages
          else prior = []) ∧
        generatePosts (chatExec (postChat env body) { conversations := convs }).2.log =
          [⟨body.message.getD "", body.outputType.getD "script",
            jsSliceLast (prior ++ [⟨"user", body.message.getD "", env.now⟩]) 10⟩]) := by
  cases hm : truthy body.message
  · left
    rw [postChat_no_message env body convs hm]
    rfl
  · cases hu : env.addUserOk
    · exact Or.inl (postChat_posts_add_failed env body convs hu)
    · cases hid : truthy body.conversationId
      · right
        refine ⟨rfl, [], by simp, ?_⟩
        exact postChat_posts_new env body convs hm hid hu
      · cases hf : env.findOk
        · exact Or.inl (postChat_posts_unresolved env body convs hid (Or.inl hf))
        · cases hfind : (convs.find? fun c => c.id = body.conversationId.getD "") with
          | none => exact Or.inl (postChat_posts_unresolved env body convs hid (Or.inr hfind))
          | some conv =>
            right
            have hmem : conv ∈ convs := List.mem_of_find?_eq_some hfind
            have hcid : conv.id = body.conversationId.getD "" := by
              have := List.find?_some hfind
              simpa using this
            refine ⟨rfl, conv.messages, ?_, ?_⟩
            · simp only [if_true]
              exact ⟨conv, hmem, hcid, rfl⟩
            · exact postChat_posts_found env body convs _ conv hm hid rfl hf hfind hu

/-- C17. A chat request whose message is missing or empty is answered 400
`Message is required`, with no effect at all, so no call to the service. Every
request an execution sends to `/generate` comes from a non-empty message and
carries that message as prompt; its history is `slice(-10)` of the messages of the
conversation (those of the stored conversation, none for a new one) with the new
user message appended: the last `min(10, n)` of these `n` messages, a suffix in the
original order, ending with the new user message. At most one request is sent, and
exactly one for a new conversation whose user message is saved. -/
theorem C17_chat_history_is_last_ten (env : ChatEnv) (body : ChatBody)
    (convs : List Conversation) :
    (truthy body.message = false →
      chatExec (postChat env body) { conversations := convs } =
        (Except.ok ⟨400, ChatResBody.error "Message is required"⟩,
          { conversations := convs })) ∧
    (∀ req ∈ generatePosts (chatExec (postChat env body) { conversations := convs }).2.log,
      truthy body.message = true ∧
      ∃ prior : List Message,
        (if truthy body.conversationId = true then
            ∃ conv ∈ convs, conv.id = body.conversationId.getD "" ∧ prior = conv.messages
          else prior = []) ∧
        req.prompt = body.message.getD "" ∧
        req.conversationHistory =
          jsSliceLast (prior ++ [⟨"user", body.message.getD "", env.now⟩]) 10 ∧
        req.conversationHistory.length = min 10 (prior.length + 1) ∧
        req.conversationHistory <:+ prior ++ [⟨"user", body.message.getD "", env.now⟩] ∧
        req.conversationHistory.getLast? = some ⟨"user", body.message.getD "", env.now⟩) ∧
    (generatePosts (chatExec (postChat env body) { conversations := convs }).2.log).length ≤ 1 ∧
    (truthy body.message = true → truthy body.conversationId = false →
      env.addUserOk = true →
      (generatePosts
        (chatExec (postChat env body) { conversations := convs }).2.log).length = 1) := by
  refine ⟨postChat_no_message env body convs, ?_, ?_, ?_⟩
  · intro req hreq
    rcases postChat_posts_cases env body convs with h | ⟨hm, prior, hprior, h⟩
    · rw [h] at hreq
      simp at hreq
    · rw [h] at hreq
      simp only [List.mem_singleton] at hreq
      subst hreq
      obtain ⟨h1, h2, h3⟩ :=
        jsSliceLast_snoc prior (⟨"user", body.message.getD "", env.now⟩ : Message)
      exact ⟨hm, prior, hprior, rfl, rfl, h1, h2, h3⟩
  · rcases postChat_posts_cases env body convs with h | ⟨_, prior, _, h⟩ <;> rw [h] <;> simp
  · intro hm hid hu
    rw [postChat_posts_new env body convs hm hid hu]
    rfl

/-- C17 (witness): a request that continues a conversation of twelve messages sends
ten messages, the last of which is the new one. -/
theorem C17_witness :
    truthy continueChat.message = true ∧
    (generatePosts (chatExec (postChat {} continueChat)
      { conversations := [longConversation] }).2.log).map
        (fun r => (r.conversationHistory.length, r.conversationHistory.getLast?)) =
      [(10, some ⟨"user", "and then?", 0⟩)] ∧
    (generatePosts (chatExec (postChat {} { message := some "hi" })
      { conversations := [] }).2.log).length = 1 :=
  ⟨by decide, by decide,
    (C17_chat_history_is_last_ten {} { message := some "hi" } []).2.2.2 (by decide)
      (by decide) rfl⟩

/-! ## C13: the storage file name -/

section DecimalLemmas

theorem digitChar_val (m : Nat) (h : m < 10) : (Nat.digitChar m).toNat - 48 = m := by
  interval_cases m <;> rfl

theorem digitChar_ne_dash (m : Nat) (h : m < 10) : Nat.digitChar m ≠ '-' := by
  interval_cases m <;> decide

theorem toDigitsCore_val (fuel n : Nat) (ds : List Char) (h : n < fuel) :
    (Nat.toDigitsCore 10 fuel n ds).foldl (fun a c => a * 10 + (c.toNat - 48)) 0 =
      ds.foldl (fun a c => a * 10 + (c.toNat - 48)) n := by
  induction fuel generalizing n ds with
  | zero => omega
  | succ fuel ih =>
    have hmod : n % 10 < 10 := Nat.mod_lt _ (by decide)
    simp only [Nat.toDigitsCore]
    by_cases h0 : n / 10 = 0
    · simp only [h0, if_true, List.foldl_cons, Nat.zero_mul, Nat.zero_add,
        digitChar_val _ hmod]
      have : n % 10 = n := Nat.mod_eq_of_lt (by omega)
      rw [this]
    · simp only [h0, if_false]
      rw [ih (n / 10) _ (by omega)]
      simp only [List.foldl_cons, digitChar_val _ hmod]
      have : n / 10 * 10 + n % 10 = n := by omega
      rw [this]

theorem toDigitsCore_no_dash (fuel n : Nat) (ds : List Char) (h : '-' ∉ ds) :
    '-' ∉ Nat.toDigitsCore 10 fuel n ds := by
  induction fuel generalizing n ds with
  | zero => simpa [Nat.toDigitsCore] using h
  | succ fuel ih =>
    have hmod : n % 10 < 10 := Nat.mod_lt _ (by decide)
    have hd : '-' ∉ Nat.digitChar (n % 10) :: ds := by
      intro hmem
      rcases List.mem_cons.mp hmem with h1 | h1
      · exact digitChar_ne_dash _ hmod h1.symm
      · exact h h1
    simp only [Nat.toDigitsCore]
    by_cases h0 : n / 10 = 0
    · simpa only [h0, if_true] using hd
    · simp only [h0, if_false]
      exact ih _ _ hd

theorem toDigits_injective (n m : Nat) (h : Nat.toDigits 10 n = Nat.toDigits 10 m) : n = m := by
  have hn := toDigitsCore_val (n + 1) n [] (Nat.lt_succ_self n)
  have hm := toDigitsCore_val (m + 1) m [] (Nat.lt_succ_self m)
  simp only [List.foldl_nil] at hn hm
  unfold Nat.toDigits at h
  rw [← hn, ← hm, h]

theorem split_at_dash (l1 l2 m1 m2 : List Char) (h1 : '-' ∉ l1) (h2 : '-' ∉ l2)
    (h : l1 ++ '-' :: m1 = l2 ++ '-' :: m2) : l1 = l2 ∧ m1 = m2 := by
  induction l1 generalizing l2 with
  | nil =>
    cases l2 with
    | nil => simpa using h
    | cons c cs =>
      simp only [List.nil_append, List.cons_append, List.cons.injEq] at h
      exact absurd (by simp [← h.1]) h2
  | cons a as ih =>
    cases l2 with
    | nil =>
      simp only [List.nil_append, List.cons_append, List.cons.injEq] at h
      exact absurd (by simp [h.1]) h1
    | cons c cs =>
      simp only [List.cons_append, List.cons.injEq] at h
      obtain ⟨hac, hrest⟩ := h
      have := ih cs (fun hx => h1 (List.mem_cons_of_mem _ hx))
        (fun hx => h2 (List.mem_cons_of_mem _ hx)) hrest
      exact ⟨by rw [hac, this.1], this.2⟩

theorem storageFilename_data (now random : Nat) (f : IncomingFile) :
    (storageFilename now random f).data =
      f.fieldname.data ++ '-' :: (Nat.toDigits 10 now ++ '-' :: Nat.toDigits 10 random ++
        (extname f.originalname).data) := by
  simp [storageFilename, toString, Nat.repr, String.data_append, List.asString]

theorem storageFilename_inj (now1 random1 now2 random2 : Nat) (f1 f2 : IncomingFile)
    (hfield : f1.fieldname = f2.fieldname) (hname : f1.originalname = f2.originalname) :
    storageFilename now1 random1 f1 = storageFilename now2 random2 f2 ↔
      now1 = now2 ∧ random1 = random2 := by
  constructor
  · intro h
    have hd := congrArg String.data h
    rw [storageFilename_data, storageFilename_data, hfield, hname] at hd
    have h1 := List.append_cancel_left hd
    simp only [List.cons.injEq, true_and] at h1
    have h2 := List.append_cancel_right h1
    obtain ⟨ha, hb⟩ := split_at_dash _ _ _ _
      (toDigitsCore_no_dash _ _ [] (by simp)) (toDigitsCore_no_dash _ _ [] (by simp)) h2
    exact ⟨toDigits_injective _ _ ha, toDigits_injective _ _ hb⟩
  · rintro ⟨rfl, rfl⟩
    simp [storageFilename, hfield, hname]

end DecimalLemmas


/-- C13 (counterexample). Two ingests of uploads named `script.txt` that draw the
same timestamp and the same random integer: both records are stored, and both
point at the same storage file. -/
theorem C13_counterexample :
    (runTwoUploadsSameDraw.1.world.lookup "id0").map (fun d => (d.originalName, d.filename)) =
      some ("script.txt", "script-1700000000000-42.txt") ∧
    (runTwoUploadsSameDraw.1.world.lookup "id1").map (fun d => (d.originalName, d.filename)) =
      some ("script.txt", "script-1700000000000-42.txt") ∧
    (runTwoUploadsSameDraw.1.world.lookup "id0").map (fun d => d.filePath) =
      (runTwoUploadsSameDraw.1.world.lookup "id1").map (fun d => d.filePath) := by
  decide

/-- C13 (amended). The storage file name is the field name, `-`, the timestamp, `-`,
the random integer and the extension of the original name; for two uploads with
the same field name and the same original name, the two storage file names are
equal exactly when the timestamps are equal and the random integers are equal, so
they are distinct exactly when the two draws differ. -/
theorem C13_storage_name_distinct_iff_draws_differ (now1 random1 now2 random2 : Nat)
    (f1 f2 : IncomingFile) (hfield : f1.fieldname = f2.fieldname)
    (hname : f1.originalname = f2.originalname) :
    storageFilename now1 random1 f1 =
      f1.fieldname ++ "-" ++ (toString now1 ++ "-" ++ toString random1) ++
        extname f1.originalname ∧
    (storageFilename now1 random1 f1 = storageFilename now2 random2 f2 ↔
      now1 = now2 ∧ random1 = random2) ∧
    (storageFilename now1 random1 f1 ≠ storageFilename now2 random2 f2 ↔
      now1 ≠ now2 ∨ random1 ≠ random2) := by
  have h := storageFilename_inj now1 random1 now2 random2 f1 f2 hfield hname
  refine ⟨rfl, h, ?_⟩
  rw [Ne, h]
  constructor
  · intro hne
    by_cases h1 : now1 = now2
    · exact Or.inr fun h2 => hne ⟨h1, h2⟩
    · exact Or.inl h1
  · rintro (h1 | h1) ⟨h2, h3⟩
    · exact h1 h2
    · exact h1 h3

/-- C13 (witness): the same upload with the same timestamp and two random integers. -/
theorem C13_witness :
    exampleUpload.fieldname = exampleUpload.fieldname ∧
    storageFilename 1700000000000 42 exampleUpload ≠
      storageFilename 1700000000000 43 exampleUpload :=
  ⟨rfl,
    (C13_storage_name_distinct_iff_draws_differ 1700000000000 42 1700000000000 43
      exampleUpload exampleUpload rfl rfl).2.2.mpr (Or.inr (by decide))⟩

end Scriptful
